import Mathlib

/-!
Verification development for the cobmo optimization problem module
(src/cobmo/optimization_problem.py).

The Python module formulates a Pyomo optimization model from a linear
building model and a problem-type tag, then solves it and extracts result
tables.  We embed the formulation shallowly: Pyomo expressions become an
expression AST over the problem's decision variables, the ConstraintList
becomes a Lean list of constraints built in the same order, the
incrementally mutated cost accumulators (float-or-expression) become an
explicit sum type, and Python exceptions (TypeError / KeyError /
AttributeError / IndexError / ValueError) become Except errors.
Numeric values are rationals.
-/

namespace Cobmo

/-- Decision variables of the Pyomo model: trajectory variables indexed by
timestep and name, plus the variant-specific scalar variables
(each declared over index [0] in the source, so modelled as a single
variable). -/
inductive BVar where
  | state (t : Int) (s : String)
  | control (t : Int) (c : String)
  | output (t : Int) (o : String)
  | storageSize
  | storagePeakPower
  | storageExists
  | loadReduction
deriving DecidableEq, Repr

/-- Linear Pyomo expressions as built by the source: constants, variables,
sums, and multiplication by a scalar coefficient. -/
inductive Expr where
  | const (q : ℚ)
  | var (v : BVar)
  | add (a b : Expr)
  | smul (q : ℚ) (e : Expr)
deriving DecidableEq, Repr

/-- Evaluate an expression under an assignment of values to variables. -/
def Expr.eval (a : BVar → ℚ) : Expr → ℚ
  | .const q => q
  | .var v => a v
  | .add x y => x.eval a + y.eval a
  | .smul q e => q * e.eval a

/-- Evaluate an expression under a partial assignment; `none` when any
referenced variable is unvalued (pyo.value raises ValueError in that case). -/
def Expr.evalOpt (a : BVar → Option ℚ) : Expr → Option ℚ
  | .const q => some q
  | .var v => a v
  | .add x y => do
      let xv ← x.evalOpt a
      let yv ← y.evalOpt a
      pure (xv + yv)
  | .smul q e => do
      let ev ← e.evalOpt a
      pure (q * ev)

/-- Whether an expression mentions a given variable. -/
def Expr.uses (v : BVar) : Expr → Bool
  | .const _ => false
  | .var w => decide (w = v)
  | .add x y => x.uses v || y.uses v
  | .smul _ e => e.uses v

/-- Constraints of the Pyomo ConstraintList: equalities and inequalities
between two expressions. -/
inductive Constr where
  | ceq (l r : Expr)
  | cle (l r : Expr)
  | cge (l r : Expr)
deriving DecidableEq, Repr

/-- Satisfaction of a constraint by an assignment. -/
def Constr.sat (a : BVar → ℚ) : Constr → Prop
  | .ceq l r => l.eval a = r.eval a
  | .cle l r => l.eval a ≤ r.eval a
  | .cge l r => r.eval a ≤ l.eval a

instance (a : BVar → ℚ) : (c : Constr) → Decidable (c.sat a)
  | .ceq l r => inferInstanceAs (Decidable (l.eval a = r.eval a))
  | .cle l r => inferInstanceAs (Decidable (l.eval a ≤ r.eval a))
  | .cge l r => inferInstanceAs (Decidable (r.eval a ≤ l.eval a))

/-- Whether a constraint mentions a given variable. -/
def Constr.uses (v : BVar) : Constr → Bool
  | .ceq l r => l.uses v || r.uses v
  | .cle l r => l.uses v || r.uses v
  | .cge l r => l.uses v || r.uses v

/-- Python sum(...) over a list of Pyomo expressions: a left fold of
addition starting from the number 0. -/
def sumExpr (l : List Expr) : Expr := l.foldl .add (.const 0)

/-- Python sum(...) over plain numbers. -/
def sumQ (l : List ℚ) : ℚ := l.foldl (· + ·) 0

/-- Python substring containment test (the `in` operator on strings). -/
def hasSubList (pat : List Char) : List Char → Bool
  | [] => pat.isEmpty
  | c :: rest => pat.isPrefixOf (c :: rest) || hasSubList pat rest

/-- Python substring containment on strings, `pat in s`. -/
def hasSub (s pat : String) : Bool := hasSubList pat.toList s.toList

/-- Cost accumulator: in the source, `operation_cost` and
`investment_cost` start as the float 0.0 and become Pyomo expressions on
the first `+=` of an expression.  The extraction code dispatches on the
runtime type (float vs expression), so we keep the two cases apart. -/
inductive Cost where
  | lit (q : ℚ)
  | expr (e : Expr)
deriving DecidableEq, Repr

/-- Adding a Pyomo expression to the accumulator (Python `+=`): a float
accumulator becomes an expression. -/
def Cost.addE : Cost → Expr → Cost
  | .lit q, e => .expr (.add (.const q) e)
  | .expr e0, e => .expr (.add e0 e)

/-- Numeric value of the accumulated cost under a (total) assignment. -/
def Cost.eval (a : BVar → ℚ) : Cost → ℚ
  | .lit q => q
  | .expr e => e.eval a

/-- Retrieval of a cost in solve(): a float accumulator is returned
literally; an expression accumulator goes through pyo.value, which raises
(here: errors) when some referenced variable has no value. -/
def Cost.retrieve (vals : BVar → Option ℚ) : Cost → Except String ℚ
  | .lit q => .ok q
  | .expr e =>
      match e.evalOpt vals with
      | some q => .ok q
      | none => .error "ValueError: no value for uninitialized NumericValue"

/-- Building model consumed by the formulator (external collaborator).
Timeseries are indexed by the timestep (an integer count of seconds, as
pandas timestamps are instants with second resolution here) and matrices by
name pairs.  Scenario parameters are the scalar lookups the source uses. -/
structure Building where
  timesteps : List Int
  states : List String
  controls : List String
  outputs : List String
  disturbances : List String
  state_matrix : String → String → ℚ
  control_matrix : String → String → ℚ
  disturbance_matrix : String → String → ℚ
  state_output_matrix : String → String → ℚ
  control_output_matrix : String → String → ℚ
  disturbance_output_matrix : String → String → ℚ
  disturbance_timeseries : Int → String → ℚ
  state_vector_initial : String → ℚ
  output_constraint_timeseries_minimum : Int → String → ℚ
  output_constraint_timeseries_maximum : Int → String → ℚ
  electricity_price_timeseries : Int → ℚ
  building_storage_type : String
  storage_battery_depth_of_discharge : ℚ
  water_density : ℚ
  storage_lifetime : ℚ
  storage_planning_energy_installation_cost : ℚ
  storage_planning_power_installation_cost : ℚ
  storage_planning_fixed_installation_cost : ℚ

/-- Large constant used by the storage existence big-M constraint
(1.0e100 in the source). -/
def LARGE_CONSTANT : ℚ := 10 ^ 100

/-- Seconds in the pandas timedelta for the string '1y'
(365.2425 days, the mean Gregorian year). -/
def yearSeconds : ℚ := 31556952

/-- Seconds component of a timedelta (pandas Timedelta.seconds: the
in-day part, i.e. the total seconds modulo one day). -/
def secondsComponent (delta : Int) : ℚ := ((delta % 86400 : Int) : ℚ)

/-- Output-name test used for the operation cost and the load reduction
constraint: an electric power output that is not a storage-to-zone
transfer. -/
def elecCond (o : String) : Bool := hasSub o "electric_power" && !hasSub o "storage_to_zone"

/-- Initial state constraints: for each state, pin the state variable at
the first timestep to state_vector_initial. -/
def initialConstraints (b : Building) (t0 : Int) : List Constr :=
  b.states.map fun s =>
    .ceq (.var (.state t0 s)) (.const (b.state_vector_initial s))

/-- Right-hand side of the state equation at a timestep for a state:
A row times the state vector, plus B row times the control vector, plus
E row times the disturbance values (the last sum is a sum of plain
numbers in the source, hence a constant here). -/
def transitionRHS (b : Building) (t : Int) (s : String) : Expr :=
  .add
    (.add
      (sumExpr (b.states.map fun s2 =>
        .smul (b.state_matrix s s2) (.var (.state t s2))))
      (sumExpr (b.controls.map fun c =>
        .smul (b.control_matrix s c) (.var (.control t c)))))
    (.const (sumQ (b.disturbances.map fun d =>
      b.disturbance_matrix s d * b.disturbance_timeseries t d)))

/-- State equation constraints: for each state and each timestep except the
last, the state variable at timestep + delta equals the linear dynamics
applied at the timestep. -/
def transitionConstraints (b : Building) (delta : Int) : List Constr :=
  b.states.flatMap fun s =>
    b.timesteps.dropLast.map fun t =>
      .ceq (.var (.state (t + delta) s)) (transitionRHS b t s)

/-- Right-hand side of the output equation at a timestep for an output. -/
def outputRHS (b : Building) (t : Int) (o : String) : Expr :=
  .add
    (.add
      (sumExpr (b.states.map fun s =>
        .smul (b.state_output_matrix o s) (.var (.state t s))))
      (sumExpr (b.controls.map fun c =>
        .smul (b.control_output_matrix o c) (.var (.control t c)))))
    (.const (sumQ (b.disturbances.map fun d =>
      b.disturbance_output_matrix o d * b.disturbance_timeseries t d)))

/-- Output equation constraints: for each output and each timestep, the
output variable equals the linear output map. -/
def outputEqConstraints (b : Building) : List Constr :=
  b.outputs.flatMap fun o =>
    b.timesteps.map fun t =>
      .ceq (.var (.output t o)) (outputRHS b t o)

/-- Storage size term appearing in the state-of-charge upper bound: the
storage size decision variable under storage_planning; under
storage_planning_baseline the attribute is the plain Python list [0.0],
so indexing yields the number 0.0. -/
def storageSizeTerm (pt : String) : Expr :=
  if pt = "storage_planning" then .var .storageSize else .const 0

/-- Minimum-bound part of the output bounds constraints for one
(output, timestep) pair: under maximum_load, temperature outputs are
pinned by an equality to the minimum bound at every timestep except the
initial one (where nothing is added); otherwise the plain lower bound. -/
def minBoundConstraints (b : Building) (pt : String) (t0 t : Int) (o : String) : List Constr :=
  if hasSub o "temperature" && decide (pt = "maximum_load") then
    if t = t0 then []
    else [.ceq (.var (.output t o)) (.const (b.output_constraint_timeseries_minimum t o))]
  else
    [.cge (.var (.output t o)) (.const (b.output_constraint_timeseries_minimum t o))]

/-- Maximum-bound part of the output bounds constraints for one
(output, timestep) pair: under the storage planning variants, a
state-of-charge output is bounded by the storage size scaled by a
medium-specific factor (and by nothing at all when the storage type is
neither sensible nor battery); otherwise the plain upper bound. -/
def maxBoundConstraints (b : Building) (pt : String) (t : Int) (o : String) : List Constr :=
  if (decide (pt = "storage_planning") || decide (pt = "storage_planning_baseline"))
      && hasSub o "state_of_charge" then
    if hasSub b.building_storage_type "sensible" then
      [.cle (.var (.output t o)) (.smul b.water_density (storageSizeTerm pt))]
    else if hasSub b.building_storage_type "battery" then
      [.cle (.var (.output t o)) (.smul b.storage_battery_depth_of_discharge (storageSizeTerm pt))]
    else []
  else
    [.cle (.var (.output t o)) (.const (b.output_constraint_timeseries_maximum t o))]

/-- Output bounds constraints, in source order: outputs outer, timesteps
inner, minimum part then maximum part per pair. -/
def boundConstraints (b : Building) (pt : String) (t0 : Int) : List Constr :=
  b.outputs.flatMap fun o =>
    b.timesteps.flatMap fun t =>
      minBoundConstraints b pt t0 t o ++ maxBoundConstraints b pt t o

/-- Storage planning auxiliary constraints per timestep: the peak demand
bound on the storage charging electric power, then the big-M existence
constraint storage_size <= storage_exists * 1.0e100. -/
def storageAuxConstraints (b : Building) : List Constr :=
  b.timesteps.flatMap fun t =>
    [ .cle
        (sumExpr (b.outputs.map fun o =>
          if hasSub o "storage_charge" && hasSub o "electric_power"
          then .var (.output t o) else .const 0))
        (.var .storagePeakPower),
      .cle (.var .storageSize) (.smul LARGE_CONSTANT (.var .storageExists)) ]

/-- Reference electric demand at a timestep for the load reduction
constraint: Python sum over outputs of the reference trajectory value for
electric power outputs and 0.0 otherwise.  The reference object is only
dereferenced for outputs passing the filter; dereferencing a missing
reference raises (AttributeError on None). -/
def refDemand (ref : Option (Int → String → ℚ)) (t : Int) (acc : ℚ) :
    List String → Except String ℚ
  | [] => .ok acc
  | o :: os =>
      if elecCond o then
        match ref with
        | some r => refDemand ref t (acc + r t o) os
        | none => .error "AttributeError: NoneType has no attribute loc"
      else refDemand ref t (acc + 0) os

/-- Load reduction window test for one timestep, with Python
short-circuit semantics: comparing a timestamp with a missing (None)
bound raises, but only if the comparison is actually evaluated. -/
def inWindow (startT endT : Option Int) (t : Int) : Except String Bool :=
  match startT with
  | none => .error "TypeError: comparison of Timestamp with NoneType"
  | some st =>
      if st ≤ t then
        match endT with
        | none => .error "TypeError: comparison of Timestamp with NoneType"
        | some et => .ok (decide (t < et))
      else .ok false

/-- Load reduction constraint added for one in-window timestep: the total
electric demand equals the reference demand scaled by
(1 - load_reduction / 100). -/
def lrConstraint (outputs : List String) (t : Int) (demand : ℚ) : Constr :=
  .ceq
    (sumExpr (outputs.map fun o =>
      if elecCond o then .var (.output t o) else .const 0))
    (.smul demand (.add (.const 1) (.smul (-1 / 100) (.var .loadReduction))))

/-- Loop of the load reduction constraint construction over the
timesteps, accumulating constraints for in-window timesteps. -/
def lrLoop (outputs : List String) (startT endT : Option Int)
    (ref : Option (Int → String → ℚ)) (acc : List Constr) :
    List Int → Except String (List Constr)
  | [] => .ok acc
  | t :: ts =>
      match inWindow startT endT t with
      | .error msg => .error msg
      | .ok false => lrLoop outputs startT endT ref acc ts
      | .ok true =>
          match refDemand ref t 0 outputs with
          | .error msg => .error msg
          | .ok demand =>
              lrLoop outputs startT endT ref (acc ++ [lrConstraint outputs t demand]) ts

/-- Load reduction auxiliary constraints: for each timestep inside the
reduction window, the electric-demand-equals-reduced-reference
constraint. -/
def loadReductionConstraints (b : Building) (startT endT : Option Int)
    (ref : Option (Int → String → ℚ)) : Except String (List Constr) :=
  lrLoop b.outputs startT endT ref [] b.timesteps

/-- Variant-specific auxiliary constraints (storage planning or load
reduction; empty otherwise). -/
def auxConstraints (b : Building) (pt : String) (startT endT : Option Int)
    (ref : Option (Int → String → ℚ)) : Except String (List Constr) :=
  if pt = "storage_planning" then .ok (storageAuxConstraints b)
  else if pt = "load_reduction" then loadReductionConstraints b startT endT ref
  else .ok []

/-- Operation cost factor: annualization scaling for the storage planning
variants, the de-weighting 1.0e-6 for load reduction, and 1.0 otherwise. -/
def operationCostFactor (b : Building) (pt : String) (delta : Int) : ℚ :=
  if pt = "storage_planning" || pt = "storage_planning_baseline" then
    yearSeconds / (delta : ℚ) / (b.timesteps.length : ℚ) * b.storage_lifetime * 14
  else if pt = "load_reduction" then 1 / 1000000
  else 1

/-- Price series perturbation for the price_sensitivity variant: multiply
the price at the target timestep by the factor, in the local copy of the
series.  Indexing with a missing or absent timestep raises (KeyError), and
multiplying by a missing factor raises (TypeError). -/
def perturbPrice (b : Building) (pt : String) (psTimestep : Option Int)
    (psFactor : Option ℚ) : Except String (Int → ℚ) :=
  if pt = "price_sensitivity" then
    match psTimestep with
    | none => .error "KeyError: None not in index"
    | some tau =>
        if tau ∈ b.timesteps then
          match psFactor with
          | none => .error "TypeError: float times NoneType"
          | some f => .ok (fun t => if t = tau then b.electricity_price_timeseries t * f
                                    else b.electricity_price_timeseries t)
        else .error "KeyError: timestep not in index"
  else .ok b.electricity_price_timeseries

/-- Per-(timestep, output) contribution to the operation cost: under
minimum_load / maximum_load only the grid_electric_power output, with no
weighting; otherwise every electric power output (excluding
storage-to-zone) weighted by Delta-t seconds / 3600 / 1000 (W to kWh),
the (possibly perturbed) price and the operation cost factor. -/
def opTerm (pt : String) (price : Int → ℚ) (delta : Int) (factor : ℚ)
    (t : Int) (o : String) : Option Expr :=
  if pt = "minimum_load" || pt = "maximum_load" then
    if o = "grid_electric_power" then some (.var (.output t o)) else none
  else
    if elecCond o then
      some (.smul (secondsComponent delta / 3600 / 1000 * price t * factor)
        (.var (.output t o)))
    else none

/-- Operation cost accumulation: starts as the float 0.0 and folds the
per-(timestep, output) contributions over timesteps (outer loop) and
outputs (inner loop), in source order. -/
def operationCost (b : Building) (pt : String) (price : Int → ℚ)
    (delta : Int) (factor : ℚ) : Cost :=
  b.timesteps.foldl
    (fun acc t =>
      b.outputs.foldl
        (fun acc2 o =>
          match opTerm pt price delta factor t o with
          | some e => acc2.addE e
          | none => acc2)
        acc)
    (.lit 0)

/-- Investment cost expression for the sensible storage medium. -/
def sensibleInvestment (b : Building) : Expr :=
  .add
    (.add
      (.smul b.storage_planning_energy_installation_cost (.var .storageSize))
      (.smul b.storage_planning_power_installation_cost
        (.smul (1 / 1000) (.var .storagePeakPower))))
    (.smul b.storage_planning_fixed_installation_cost (.var .storageExists))

/-- Investment cost expression for the battery storage medium. -/
def batteryInvestment (b : Building) : Expr :=
  .add
    (.add
      (.smul b.storage_planning_energy_installation_cost
        (.smul (1 / 1000) (.smul (1 / 3600) (.var .storageSize))))
      (.smul b.storage_planning_power_installation_cost
        (.smul (1 / 1000) (.var .storagePeakPower))))
    (.smul b.storage_planning_fixed_installation_cost (.var .storageExists))

/-- Investment cost accumulation: storage installation costs under
storage_planning (by storage medium), minus the load reduction variable
under load_reduction, untouched (the float 0.0) otherwise. -/
def investmentCost (b : Building) (pt : String) : Cost :=
  if pt = "storage_planning" then
    if hasSub b.building_storage_type "sensible" then
      Cost.addE (.lit 0) (sensibleInvestment b)
    else if hasSub b.building_storage_type "battery" then
      Cost.addE (.lit 0) (batteryInvestment b)
    else .lit 0
  else if pt = "load_reduction" then
    Cost.addE (.lit 0) (.smul (-1) (.var .loadReduction))
  else .lit 0

/-- Formulated optimization problem: the building and problem type, the
constraint list in construction order, the two cost accumulators, and the
invocation-local (possibly perturbed) electricity price series. -/
structure Problem where
  building : Building
  problem_type : String
  constraints : List Constr
  operation_cost : Cost
  investment_cost : Cost
  electricity_price : Int → ℚ

/-- Formulation (the constructor OptimizationProblem.__init__): build the
constraint sections in source order, compute the operation cost factor,
perturb the price copy for price_sensitivity, and accumulate the costs.
Fewer than two timesteps raises (IndexError computing the timestep
delta). -/
def formulate (b : Building) (pt : String)
    (output_vector_reference : Option (Int → String → ℚ))
    (load_reduction_start_time load_reduction_end_time : Option Int)
    (price_sensitivity_factor : Option ℚ)
    (price_sensitivity_timestep : Option Int) : Except String Problem :=
  match b.timesteps with
  | t0 :: t1 :: _ =>
      (auxConstraints b pt load_reduction_start_time load_reduction_end_time
        output_vector_reference).bind fun aux =>
      (perturbPrice b pt price_sensitivity_timestep price_sensitivity_factor).map fun price =>
        { building := b
          problem_type := pt
          constraints :=
            (initialConstraints b t0 ++ transitionConstraints b (t1 - t0)
              ++ outputEqConstraints b ++ boundConstraints b pt t0) ++ aux
          operation_cost :=
            operationCost b pt price (t1 - t0) (operationCostFactor b pt (t1 - t0))
          investment_cost := investmentCost b pt
          electricity_price := price }
  | _ => .error "IndexError: timestep index out of range"

/-- Variable domains as declared (Reals for states and outputs,
NonNegativeReals for controls, and the variant-specific scalar domains;
a scalar not declared by the variant is unconstrained). -/
inductive Dom where
  | reals
  | nonneg
  | binary
deriving DecidableEq, Repr

/-- Domain of each variable under a problem type. -/
def domainOf (pt : String) : BVar → Dom
  | .state _ _ => .reals
  | .control _ _ => .nonneg
  | .output _ _ => .reals
  | .storageSize => if pt = "storage_planning" then .nonneg else .reals
  | .storagePeakPower => if pt = "storage_planning" then .nonneg else .reals
  | .storageExists => if pt = "storage_planning" then .binary else .reals
  | .loadReduction => if pt = "load_reduction" then .nonneg else .reals

/-- Membership of a value in a domain. -/
def Dom.mem : Dom → ℚ → Prop
  | .reals, _ => True
  | .nonneg, q => 0 ≤ q
  | .binary, q => q = 0 ∨ q = 1

instance : (d : Dom) → (q : ℚ) → Decidable (d.mem q)
  | .reals, _ => inferInstanceAs (Decidable True)
  | .nonneg, q => inferInstanceAs (Decidable (0 ≤ q))
  | .binary, q => inferInstanceAs (Decidable (q = 0 ∨ q = 1))

/-- Feasibility: all constraints satisfied and all variables within their
declared domains. -/
def Problem.feasible (p : Problem) (a : BVar → ℚ) : Prop :=
  (∀ c ∈ p.constraints, c.sat a) ∧ (∀ v, (domainOf p.problem_type v).mem (a v))

/-- Objective value (operation cost plus investment cost, minimized). -/
def Problem.objective (p : Problem) (a : BVar → ℚ) : ℚ :=
  p.operation_cost.eval a + p.investment_cost.eval a

/-- Optimality: feasible and of minimal objective among feasible
assignments. -/
def Problem.optimal (p : Problem) (a : BVar → ℚ) : Prop :=
  p.feasible a ∧ ∀ a2, p.feasible a2 → p.objective a ≤ p.objective a2

/-- Solver outcome handed back by the abstract solver: a termination
condition string and a partial assignment of values to variables. -/
structure SolverResult where
  termination : String
  values : BVar → Option ℚ

/-- Result tuple of solve(): the three trajectory tables (a cell holds the
solver value, which may be missing), the two scalar costs, and the
optional storage size. -/
structure SolveOutput where
  control_vector : Int → String → Option ℚ
  state_vector : Int → String → Option ℚ
  output_vector : Int → String → Option ℚ
  operation_cost : ℚ
  investment_cost : ℚ
  storage_size : Option ℚ

/-- Empty result table: a DataFrame of 0.0 over the given index and
columns (cells outside the frame do not exist). -/
def initTable (idx : List Int) (cols : List String) : Int → String → Option ℚ :=
  fun t c => if t ∈ idx ∧ c ∈ cols then some 0 else none

/-- Overwrite one table cell. -/
def setCell (tab : Int → String → Option ℚ) (t : Int) (c : String) (v : Option ℚ) :
    Int → String → Option ℚ :=
  fun t2 c2 => if t2 = t ∧ c2 = c then v else tab t2 c2

/-- Result table extraction: initialize with 0.0, then overwrite every
cell with the solver value of the corresponding variable (a missing
value lands in the table as the missing marker, pandas NaN). -/
def fillTable (idx : List Int) (cols : List String) (mk : Int → String → BVar)
    (vals : BVar → Option ℚ) : Int → String → Option ℚ :=
  idx.foldl
    (fun tab t => cols.foldl (fun tab2 c => setCell tab2 t c (vals (mk t c))) tab)
    (initTable idx cols)

/-- Solve and extract: store the solver result, fill the three trajectory
tables cell by cell from the solver values, retrieve the two costs (a
float accumulator literally, an expression through evaluation, which
errors on unvalued variables), and retrieve the storage size according to
the variant.  The termination condition is never inspected. -/
def solve (p : Problem) (r : SolverResult) : Except String SolveOutput :=
  (p.operation_cost.retrieve r.values).bind fun opc =>
  (p.investment_cost.retrieve r.values).map fun inv =>
    { control_vector := fillTable p.building.timesteps p.building.controls
        (fun t c => .control t c) r.values
      state_vector := fillTable p.building.timesteps p.building.states
        (fun t s => .state t s) r.values
      output_vector := fillTable p.building.timesteps p.building.outputs
        (fun t o => .output t o) r.values
      operation_cost := opc
      investment_cost := inv
      storage_size :=
        if p.problem_type = "storage_planning" then r.values .storageSize
        else if p.problem_type = "storage_planning_baseline" then some 0
        else none }

/-- Building with all collections empty and all data zero, used as a
default when destructing Except values at concrete inputs. -/
def defaultBuilding : Building where
  timesteps := []
  states := []
  controls := []
  outputs := []
  disturbances := []
  state_matrix := fun _ _ => 0
  control_matrix := fun _ _ => 0
  disturbance_matrix := fun _ _ => 0
  state_output_matrix := fun _ _ => 0
  control_output_matrix := fun _ _ => 0
  disturbance_output_matrix := fun _ _ => 0
  disturbance_timeseries := fun _ _ => 0
  state_vector_initial := fun _ => 0
  output_constraint_timeseries_minimum := fun _ _ => 0
  output_constraint_timeseries_maximum := fun _ _ => 0
  electricity_price_timeseries := fun _ => 0
  building_storage_type := ""
  storage_battery_depth_of_discharge := 0
  water_density := 0
  storage_lifetime := 0
  storage_planning_energy_installation_cost := 0
  storage_planning_power_installation_cost := 0
  storage_planning_fixed_installation_cost := 0

/-- Default problem for Except destruction at concrete inputs. -/
def defaultProblem : Problem :=
  ⟨defaultBuilding, "", [], .lit 0, .lit 0, fun _ => 0⟩

/-- Extract the ok value of an Except, falling back to a default. -/
def okOr {α : Type} (d : α) : Except String α → α
  | .ok x => x
  | .error _ => d

/-! ### General lemmas about the embedding -/

theorem foldl_add_q (l : List ℚ) (q : ℚ) : l.foldl (· + ·) q = q + l.sum := by
  induction l generalizing q with
  | nil => simp
  | cons x xs ih => simp [List.foldl, ih, add_assoc]

theorem sumQ_eq_sum (l : List ℚ) : sumQ l = l.sum := by
  simp [sumQ, foldl_add_q]

theorem foldl_addExpr_eval (a : BVar → ℚ) (l : List Expr) (e : Expr) :
    ((l.foldl .add e).eval a) = e.eval a + (l.map (Expr.eval a)).sum := by
  induction l generalizing e with
  | nil => simp
  | cons x xs ih => simp [List.foldl, ih, Expr.eval, add_assoc]

theorem sumExpr_eval (a : BVar → ℚ) (l : List Expr) :
    (sumExpr l).eval a = (l.map (Expr.eval a)).sum := by
  simp [sumExpr, foldl_addExpr_eval, Expr.eval]

/-- Elimination principle for a successful formulation: the resulting
problem is exactly the assembled constraint sections, costs and price
copy, with the auxiliary constraints and the price perturbation having
succeeded. -/
theorem formulate_ok_elim {b : Building} {pt : String}
    {ref : Option (Int → String → ℚ)} {sT eT : Option Int} {f : Option ℚ}
    {psT : Option Int} {p : Problem} {t0 t1 : Int} {rest : List Int}
    (hts : b.timesteps = t0 :: t1 :: rest)
    (hf : formulate b pt ref sT eT f psT = .ok p) :
    ∃ aux price,
      auxConstraints b pt sT eT ref = .ok aux ∧
      perturbPrice b pt psT f = .ok price ∧
      p = { building := b
            problem_type := pt
            constraints :=
              (initialConstraints b t0 ++ transitionConstraints b (t1 - t0)
                ++ outputEqConstraints b ++ boundConstraints b pt t0) ++ aux
            operation_cost :=
              operationCost b pt price (t1 - t0) (operationCostFactor b pt (t1 - t0))
            investment_cost := investmentCost b pt
            electricity_price := price } := by
  unfold formulate at hf
  rw [hts] at hf
  cases haux : auxConstraints b pt sT eT ref with
  | error msg => rw [haux] at hf; simp [Except.bind] at hf
  | ok aux =>
    rw [haux] at hf
    cases hpr : perturbPrice b pt psT f with
    | error msg => rw [hpr] at hf; simp [Except.bind, Except.map] at hf
    | ok price =>
      rw [hpr] at hf
      simp only [Except.bind, Except.map, Except.ok.injEq] at hf
      exact ⟨aux, price, rfl, rfl, hf.symm⟩

/-! ### Concrete instances used by witnesses and counterexamples -/

/-- Small concrete building: two timesteps one hour apart, one state, one
control, no outputs, one disturbance. -/
def bW1 : Building where
  timesteps := [0, 3600]
  states := ["s"]
  controls := ["c"]
  outputs := []
  disturbances := ["d"]
  state_matrix := fun _ _ => 2
  control_matrix := fun _ _ => 3
  disturbance_matrix := fun _ _ => 5
  state_output_matrix := fun _ _ => 0
  control_output_matrix := fun _ _ => 0
  disturbance_output_matrix := fun _ _ => 0
  disturbance_timeseries := fun _ _ => 7
  state_vector_initial := fun _ => 11
  output_constraint_timeseries_minimum := fun _ _ => 0
  output_constraint_timeseries_maximum := fun _ _ => 100
  electricity_price_timeseries := fun _ => 1
  building_storage_type := ""
  storage_battery_depth_of_discharge := 0
  water_density := 0
  storage_lifetime := 0
  storage_planning_energy_installation_cost := 0
  storage_planning_power_installation_cost := 0
  storage_planning_fixed_installation_cost := 0

/-- Formulated operation problem over the small building. -/
def pW1 : Problem := okOr defaultProblem (formulate bW1 "operation" none none none none none)

/-- Assignment solving the small building's dynamics: the initial state is
11 and the next state is 2 * 11 + 3 * 0 + 5 * 7 = 57. -/
def aW1 : BVar → ℚ := fun v =>
  if v = .state 0 "s" then 11 else if v = .state 3600 "s" then 57 else 0

/-- Concrete constraint list of the formulated small operation problem:
the initial-state pin and one transition equation. -/
theorem pW1_constraints :
    pW1.constraints =
      [.ceq (.var (.state 0 "s")) (.const 11),
       .ceq (.var (.state 3600 "s")) (transitionRHS bW1 0 "s")] := rfl

/-- The satisfying assignment satisfies every formulated constraint of the
small operation problem. -/
theorem aW1_sat : ∀ c ∈ pW1.constraints, c.sat aW1 := by
  intro c hc
  rw [pW1_constraints] at hc
  simp only [List.mem_cons, List.not_mem_nil, or_false] at hc
  rcases hc with rfl | rfl
  · simp [Constr.sat, Expr.eval, aW1]
  · simp [Constr.sat, Expr.eval, transitionRHS, sumExpr_eval, sumQ_eq_sum, bW1, aW1]
    norm_num

/-! ### Claims -/

/-- C1: every successfully formulated problem contains, for each state, an
equality constraint pinning the state variable at the first timestep to
state_vector_initial, and for each state and each of the N-1 consecutive
timestep pairs (each non-final timestep t paired with t + delta, its
successor on the equally spaced horizon) an equality constraint setting
the next state to A·state[t] + B·control[t] + E·disturbance[t] from the
state, control and disturbance matrices and the disturbance timeseries.
Stated semantically: any assignment satisfying the formulated constraint
list satisfies the pin and all N-1 transition equations. -/
theorem C1_dynamics_constraints {b : Building} {pt : String}
    {ref : Option (Int → String → ℚ)} {sT eT : Option Int} {f : Option ℚ}
    {psT : Option Int} {p : Problem} {t0 t1 : Int} {rest : List Int}
    (hts : b.timesteps = t0 :: t1 :: rest)
    (hf : formulate b pt ref sT eT f psT = .ok p)
    (a : BVar → ℚ) (ha : ∀ c ∈ p.constraints, c.sat a) :
    (∀ st ∈ b.states, a (.state t0 st) = b.state_vector_initial st) ∧
    (∀ st ∈ b.states, ∀ t ∈ b.timesteps.dropLast,
      a (.state (t + (t1 - t0)) st) =
        (b.states.map fun s2 => b.state_matrix st s2 * a (.state t s2)).sum
        + (b.controls.map fun c => b.control_matrix st c * a (.control t c)).sum
        + (b.disturbances.map fun d =>
            b.disturbance_matrix st d * b.disturbance_timeseries t d).sum) := by
  obtain ⟨aux, price, haux, hpr, hp⟩ := formulate_ok_elim hts hf
  subst hp
  constructor
  · intro st hst
    have hmem : Constr.ceq (.var (.state t0 st)) (.const (b.state_vector_initial st))
        ∈ initialConstraints b t0 := by
      simp only [initialConstraints, List.mem_map]
      exact ⟨st, hst, rfl⟩
    have hsat := ha _ (by simp only [List.mem_append]; exact Or.inl (Or.inl (Or.inl (Or.inl hmem))))
    simpa [Constr.sat, Expr.eval] using hsat
  · intro st hst t ht
    have hmem : Constr.ceq (.var (.state (t + (t1 - t0)) st)) (transitionRHS b t st)
        ∈ transitionConstraints b (t1 - t0) := by
      simp only [transitionConstraints, List.mem_flatMap, List.mem_map]
      exact ⟨st, hst, t, ht, rfl⟩
    have hsat := ha _ (by
      simp only [List.mem_append]; exact Or.inl (Or.inl (Or.inl (Or.inr hmem))))
    simp only [Constr.sat, Expr.eval, transitionRHS, sumExpr_eval, List.map_map,
      Function.comp, sumQ_eq_sum] at hsat
    simpa using hsat

/-- Witness for C1 at the small concrete building: the satisfying
assignment hits the pinned initial state and the concrete transition
equation 57 = 2·11 + 3·0 + 5·7. -/
theorem C1_dynamics_constraints_witness :
    aW1 (.state 0 "s") = bW1.state_vector_initial "s" ∧
    aW1 (.state (0 + (3600 - 0)) "s") =
      (bW1.states.map fun s2 => bW1.state_matrix "s" s2 * aW1 (.state 0 s2)).sum
      + (bW1.controls.map fun c => bW1.control_matrix "s" c * aW1 (.control 0 c)).sum
      + (bW1.disturbances.map fun d =>
          bW1.disturbance_matrix "s" d * bW1.disturbance_timeseries 0 d).sum := by
  have h := C1_dynamics_constraints (b := bW1) (p := pW1) rfl
    (show formulate bW1 "operation" none none none none none = .ok pW1 from rfl)
    aW1 aW1_sat
  exact ⟨h.1 "s" (by decide), h.2 "s" (by decide) 0 (by decide)⟩

/-- Building with a single electric power output and no states, controls
or disturbances; hourly timesteps, unit price. -/
def bC4 : Building where
  timesteps := [0, 3600]
  states := []
  controls := []
  outputs := ["electric_power"]
  disturbances := []
  state_matrix := fun _ _ => 0
  control_matrix := fun _ _ => 0
  disturbance_matrix := fun _ _ => 0
  state_output_matrix := fun _ _ => 0
  control_output_matrix := fun _ _ => 0
  disturbance_output_matrix := fun _ _ => 0
  disturbance_timeseries := fun _ _ => 0
  state_vector_initial := fun _ => 0
  output_constraint_timeseries_minimum := fun _ _ => 0
  output_constraint_timeseries_maximum := fun _ _ => 100
  electricity_price_timeseries := fun _ => 1
  building_storage_type := ""
  storage_battery_depth_of_discharge := 0
  water_density := 0
  storage_lifetime := 0
  storage_planning_energy_installation_cost := 0
  storage_planning_power_installation_cost := 0
  storage_planning_fixed_installation_cost := 0

/-- Formulated operation problem over the electric-output building. -/
def pC4 : Problem := okOr defaultProblem (formulate bC4 "operation" none none none none none)

/-- C2 counterexample: for the formulated small problem, a solver outcome
with termination condition infeasible is processed exactly like an optimal
one with the same variable values: solve returns the ordinary success
tuple, extraction is not skipped (the operation cost is extracted), and
the output carries no trace of the termination condition.  This refutes
the claim that a non-optimal termination is surfaced as a distinguishable
failure result with extraction skipped. -/
theorem C2_counterexample :
    solve pW1 ⟨"infeasible", fun _ => some 1⟩ = solve pW1 ⟨"optimal", fun _ => some 1⟩ ∧
    (solve pW1 ⟨"infeasible", fun _ => some 1⟩).isOk = true ∧
    (solve pW1 ⟨"infeasible", fun _ => some 1⟩).map (fun out => out.operation_cost) =
      .ok 0 :=
  ⟨rfl, rfl, rfl⟩

/-- C2 amended: solve() never inspects the termination condition — its
result is identical to that of an optimal termination with the same
variable values, so no distinguishable failure result is surfaced and
extraction always runs; the only failure mode is the ValueError raised
when a symbolic cost expression is evaluated with an unvalued variable. -/
theorem C2_solve_ignores_termination :
    (∀ (p : Problem) (r : SolverResult), solve p r = solve p ⟨"optimal", r.values⟩) ∧
    (∀ (p : Problem) (r : SolverResult) (e : Expr), p.operation_cost = .expr e →
      e.evalOpt r.values = none → (solve p r).isOk = false) := by
  constructor
  · intro p r
    rfl
  · intro p r e he hn
    simp [solve, Cost.retrieve, he, hn, Except.bind, Except.isOk, Except.toBool]

/-- Witness for the amended C2 at concrete inputs: the small problem is
termination-blind, and the electric-output problem with no variable
values fails cost evaluation. -/
theorem C2_solve_ignores_termination_witness :
    solve pW1 ⟨"infeasible", fun _ => some 2⟩ = solve pW1 ⟨"optimal", fun _ => some 2⟩ ∧
    (solve pC4 ⟨"infeasible", fun _ => none⟩).isOk = false :=
  ⟨C2_solve_ignores_termination.1 pW1 ⟨"infeasible", fun _ => some 2⟩,
   C2_solve_ignores_termination.2 pC4 ⟨"infeasible", fun _ => none⟩ _ rfl rfl⟩

/-! ### Evaluation of the accumulated operation cost -/

theorem cost_addE_eval (a : BVar → ℚ) (c : Cost) (e : Expr) :
    (c.addE e).eval a = c.eval a + e.eval a := by
  cases c <;> simp [Cost.addE, Cost.eval, Expr.eval]

theorem cost_fold_eval {α : Type} (a : BVar → ℚ) (g : α → Option Expr)
    (l : List α) (c : Cost) :
    (l.foldl (fun acc x => match g x with | some e => acc.addE e | none => acc) c).eval a
      = c.eval a + ((l.filterMap g).map (Expr.eval a)).sum := by
  induction l generalizing c with
  | nil => simp
  | cons x xs ih =>
    cases hg : g x with
    | none => simp [List.foldl, hg, ih, List.filterMap_cons]
    | some e => simp [List.foldl, hg, ih, List.filterMap_cons, cost_addE_eval, add_assoc]

theorem cost_double_fold_eval (a : BVar → ℚ) (g : Int → String → Option Expr)
    (ts : List Int) (os : List String) (c : Cost) :
    (ts.foldl
        (fun acc t =>
          os.foldl (fun acc2 o => match g t o with | some e => acc2.addE e | none => acc2) acc)
        c).eval a
      = c.eval a + (ts.map fun t => ((os.filterMap (g t)).map (Expr.eval a)).sum).sum := by
  induction ts generalizing c with
  | nil => simp
  | cons t ts ih =>
    simp only [List.foldl, List.map, List.sum_cons]
    rw [ih, cost_fold_eval]
    ring

/-- Evaluation of the accumulated operation cost as an explicit double
sum over timesteps and the per-pair contributions. -/
theorem operationCost_eval (b : Building) (pt : String) (price : Int → ℚ)
    (delta : Int) (factor : ℚ) (a : BVar → ℚ) :
    (operationCost b pt price delta factor).eval a
      = (b.timesteps.map fun t =>
          ((b.outputs.filterMap (opTerm pt price delta factor t)).map (Expr.eval a)).sum).sum := by
  have h := cost_double_fold_eval a (opTerm pt price delta factor) b.timesteps b.outputs (.lit 0)
  simpa [operationCost, Cost.eval] using h

/-- Per-timestep operation cost contributions, written as a filtered sum,
for any variant other than minimum_load / maximum_load. -/
theorem opTerm_sum_other (pt : String)
    (hmin : pt ≠ "minimum_load") (hmax : pt ≠ "maximum_load")
    (price : Int → ℚ) (delta : Int) (factor : ℚ) (t : Int) (a : BVar → ℚ)
    (os : List String) :
    ((os.filterMap (opTerm pt price delta factor t)).map (Expr.eval a)).sum =
    ((os.filter (fun o => elecCond o)).map fun o =>
      secondsComponent delta / 3600 / 1000 * price t * factor * a (.output t o)).sum := by
  induction os with
  | nil => rfl
  | cons o os ih =>
    by_cases h : elecCond o
    · simp [List.filterMap_cons, List.filter_cons, opTerm, hmin, hmax, h, Expr.eval, ih]
    · simp [List.filterMap_cons, List.filter_cons, opTerm, hmin, hmax, h, Expr.eval, ih]

/-- Per-timestep operation cost contributions for the minimum_load /
maximum_load variants: the grid electric power variable alone, with no
weighting. -/
theorem opTerm_sum_minmax (pt : String)
    (hpt : pt = "minimum_load" ∨ pt = "maximum_load")
    (price : Int → ℚ) (delta : Int) (factor : ℚ) (t : Int) (a : BVar → ℚ)
    (os : List String) :
    ((os.filterMap (opTerm pt price delta factor t)).map (Expr.eval a)).sum =
    ((os.filter (fun o => decide (o = "grid_electric_power"))).map fun o =>
      a (.output t o)).sum := by
  induction os with
  | nil => rfl
  | cons o os ih =>
    by_cases h : o = "grid_electric_power"
    · rcases hpt with rfl | rfl <;>
        simp [List.filterMap_cons, List.filter_cons, opTerm, h, Expr.eval, ih]
    · rcases hpt with rfl | rfl <;>
        simp [List.filterMap_cons, List.filter_cons, opTerm, h, Expr.eval, ih]

/-- Operation cost as the claim C4 words it, for comparison: output
variable times the timestep spacing converted to hours, times the price,
times the operation cost factor — with no watt-to-kilowatt division. -/
def operationCostClaimC4 (b : Building) (price : Int → ℚ) (delta : Int)
    (factor : ℚ) (a : BVar → ℚ) : ℚ :=
  (b.timesteps.map fun t =>
    ((b.outputs.filter (fun o => elecCond o)).map fun o =>
      a (.output t o) * ((delta : ℚ) / 3600) * price t * factor).sum).sum

/-- Formulated minimum_load problem over the electric-output building. -/
def pC4min : Problem :=
  okOr defaultProblem (formulate bC4 "minimum_load" none none none none none)

/-- C4 counterexample: on the concrete electric-output building with unit
price, hourly spacing and factor 1, the code's operation cost evaluates to
1/500 (the W-to-kWh conversion divides by 1000), while the cost claimed —
power times timestep spacing in hours times price times factor — is 2, so
the claim's formula does not match the code. -/
theorem C4_counterexample :
    formulate bC4 "operation" none none none none none = .ok pC4 ∧
    pC4.operation_cost.eval (fun _ => 1) = 1 / 500 ∧
    operationCostClaimC4 bC4 pC4.electricity_price 3600
      (operationCostFactor bC4 "operation" 3600) (fun _ => 1) = 2 ∧
    (1 / 500 : ℚ) ≠ 2 := by
  refine ⟨rfl, ?_, ?_, by norm_num⟩
  · have h : pC4.operation_cost =
        operationCost bC4 "operation" pC4.electricity_price 3600
          (operationCostFactor bC4 "operation" 3600) := rfl
    rw [h, operationCost_eval]
    simp only [opTerm_sum_other "operation" (by decide) (by decide)]
    have hpr : pC4.electricity_price = fun _ => (1 : ℚ) := rfl
    have hfac : operationCostFactor bC4 "operation" 3600 = 1 := rfl
    have hsec : secondsComponent 3600 = 3600 := by norm_num [secondsComponent]
    simp [show bC4.timesteps = [0, 3600] from rfl,
      show bC4.outputs = ["electric_power"] from rfl,
      show elecCond "electric_power" = true from rfl, hpr, hfac, hsec]
    norm_num
  · have hpr : pC4.electricity_price = fun _ => (1 : ℚ) := rfl
    have hfac : operationCostFactor bC4 "operation" 3600 = 1 := rfl
    simp [operationCostClaimC4, show bC4.timesteps = [0, 3600] from rfl,
      show bC4.outputs = ["electric_power"] from rfl,
      show elecCond "electric_power" = true from rfl, hpr, hfac]
    norm_num

/-- C4 amended: for every variant other than minimum_load / maximum_load,
the operation cost equals the sum over timesteps and electric-power
outputs (excluding storage-to-zone) of the in-day seconds component of
the timestep spacing divided by 3600 (hours) and by 1000 (watts to
kilowatts), times the possibly perturbed price, times the variant's
operation cost factor, times the output variable; for minimum_load /
maximum_load it is the unweighted sum of the grid_electric_power output
over all timesteps. -/
theorem C4_operation_cost {b : Building} {pt : String}
    {ref : Option (Int → String → ℚ)} {sT eT : Option Int} {f : Option ℚ}
    {psT : Option Int} {p : Problem} {t0 t1 : Int} {rest : List Int}
    (hts : b.timesteps = t0 :: t1 :: rest)
    (hf : formulate b pt ref sT eT f psT = .ok p) (a : BVar → ℚ) :
    (pt ≠ "minimum_load" → pt ≠ "maximum_load" →
      p.operation_cost.eval a =
        (b.timesteps.map fun t =>
          ((b.outputs.filter (fun o => elecCond o)).map fun o =>
            secondsComponent (t1 - t0) / 3600 / 1000 * p.electricity_price t
              * operationCostFactor b pt (t1 - t0) * a (.output t o)).sum).sum) ∧
    (pt = "minimum_load" ∨ pt = "maximum_load" →
      p.operation_cost.eval a =
        (b.timesteps.map fun t =>
          ((b.outputs.filter (fun o => decide (o = "grid_electric_power"))).map fun o =>
            a (.output t o)).sum).sum) := by
  obtain ⟨aux, price, haux, hpr, hp⟩ := formulate_ok_elim hts hf
  subst hp
  constructor
  · intro hmin hmax
    show (operationCost b pt price (t1 - t0) (operationCostFactor b pt (t1 - t0))).eval a = _
    rw [operationCost_eval]
    simp only [opTerm_sum_other pt hmin hmax]
  · intro hpt
    show (operationCost b pt price (t1 - t0) (operationCostFactor b pt (t1 - t0))).eval a = _
    rw [operationCost_eval]
    simp only [opTerm_sum_minmax pt hpt]

/-- Witness for the amended C4: both branches evaluated on the concrete
electric-output building (operation variant, and minimum_load variant
whose outputs contain no grid_electric_power, giving the empty sum). -/
theorem C4_operation_cost_witness :
    pC4.operation_cost.eval (fun _ => 1) =
      (bC4.timesteps.map fun t =>
        ((bC4.outputs.filter (fun o => elecCond o)).map fun o =>
          secondsComponent (3600 - 0) / 3600 / 1000 * pC4.electricity_price t
            * operationCostFactor bC4 "operation" (3600 - 0)
            * (fun _ => (1 : ℚ)) (BVar.output t o)).sum).sum ∧
    pC4min.operation_cost.eval (fun _ => 1) =
      (bC4.timesteps.map fun t =>
        ((bC4.outputs.filter (fun o => decide (o = "grid_electric_power"))).map fun o =>
          (fun _ => (1 : ℚ)) (BVar.output t o)).sum).sum :=
  ⟨(C4_operation_cost (b := bC4) (p := pC4) rfl
      (show formulate bC4 "operation" none none none none none = .ok pC4 from rfl)
      (fun _ => 1)).1 (by decide) (by decide),
   (C4_operation_cost (b := bC4) (p := pC4min) rfl
      (show formulate bC4 "minimum_load" none none none none none = .ok pC4min from rfl)
      (fun _ => 1)).2 (Or.inl rfl)⟩

/-! ### Result table extraction -/

theorem rowFold_preserve (vals : BVar → Option ℚ) (mk : Int → String → BVar)
    (t : Int) (cs : List String) (tab : Int → String → Option ℚ)
    (t2 : Int) (c : String) (h : t2 ≠ t ∨ c ∉ cs) :
    (cs.foldl (fun tab2 c2 => setCell tab2 t c2 (vals (mk t c2))) tab) t2 c = tab t2 c := by
  induction cs generalizing tab with
  | nil => rfl
  | cons c2 cs ih =>
    have hstep : setCell tab t c2 (vals (mk t c2)) t2 c = tab t2 c := by
      rcases h with h | h
      · simp [setCell, h]
      · have : c ≠ c2 := fun hc => h (hc ▸ List.mem_cons_self c2 cs)
        simp [setCell, this]
    rcases h with h | h
    · rw [List.foldl_cons, ih _ (Or.inl h), hstep]
    · have : c ∉ cs := fun hc => h (List.mem_cons_of_mem c2 hc)
      rw [List.foldl_cons, ih _ (Or.inr this), hstep]

theorem rowFold_get (vals : BVar → Option ℚ) (mk : Int → String → BVar)
    (t : Int) (cs : List String) (tab : Int → String → Option ℚ)
    (c : String) (hc : c ∈ cs) :
    (cs.foldl (fun tab2 c2 => setCell tab2 t c2 (vals (mk t c2))) tab) t c = vals (mk t c) := by
  induction cs generalizing tab with
  | nil => cases hc
  | cons c2 cs ih =>
    by_cases hmem : c ∈ cs
    · rw [List.foldl_cons, ih _ hmem]
    · have hcc : c = c2 := by
        rcases List.mem_cons.mp hc with h | h
        · exact h
        · exact absurd h hmem
      subst hcc
      rw [List.foldl_cons, rowFold_preserve vals mk t cs _ t c (Or.inr hmem)]
      simp [setCell]

theorem colFold_preserve (vals : BVar → Option ℚ) (mk : Int → String → BVar)
    (cols : List String) (idx : List Int) (tab : Int → String → Option ℚ)
    (t : Int) (c : String) (ht : t ∉ idx) :
    (idx.foldl
        (fun tab2 t2 => cols.foldl (fun tab3 c2 => setCell tab3 t2 c2 (vals (mk t2 c2))) tab2)
        tab) t c = tab t c := by
  induction idx generalizing tab with
  | nil => rfl
  | cons t2 ts ih =>
    have hne : t ≠ t2 := fun h => ht (h ▸ List.mem_cons_self t2 ts)
    have hnm : t ∉ ts := fun h => ht (List.mem_cons_of_mem t2 h)
    rw [List.foldl_cons, ih _ hnm, rowFold_preserve vals mk t2 cols tab t c (Or.inl hne)]

theorem colFold_get (vals : BVar → Option ℚ) (mk : Int → String → BVar)
    (cols : List String) (idx : List Int) (tab : Int → String → Option ℚ)
    (t : Int) (c : String) (ht : t ∈ idx) (hc : c ∈ cols) :
    (idx.foldl
        (fun tab2 t2 => cols.foldl (fun tab3 c2 => setCell tab3 t2 c2 (vals (mk t2 c2))) tab2)
        tab) t c = vals (mk t c) := by
  induction idx generalizing tab with
  | nil => cases ht
  | cons t2 ts ih =>
    by_cases hmem : t ∈ ts
    · rw [List.foldl_cons]
      exact ih _ hmem
    · have hcc : t = t2 := by
        rcases List.mem_cons.mp ht with h | h
        · exact h
        · exact absurd h hmem
      subst hcc
      rw [List.foldl_cons, colFold_preserve vals mk cols ts _ t c hmem,
        rowFold_get vals mk t cols _ c hc]

/-- Every cell of the filled result table holds exactly the solver's value
for the corresponding variable: the 0.0 initialization is always fully
overwritten. -/
theorem fillTable_get (idx : List Int) (cols : List String) (mk : Int → String → BVar)
    (vals : BVar → Option ℚ) (t : Int) (c : String) (ht : t ∈ idx) (hc : c ∈ cols) :
    fillTable idx cols mk vals t c = vals (mk t c) := by
  unfold fillTable
  exact colFold_get vals mk cols idx _ t c ht hc

/-- Elimination principle for a successful solve: the costs were
retrieved successfully and the output is exactly the filled tables, the
retrieved costs and the variant-dependent storage size. -/
theorem solve_ok_elim {p : Problem} {r : SolverResult} {out : SolveOutput}
    (h : solve p r = .ok out) :
    ∃ opc inv,
      p.operation_cost.retrieve r.values = .ok opc ∧
      p.investment_cost.retrieve r.values = .ok inv ∧
      out = { control_vector := fillTable p.building.timesteps p.building.controls
                (fun t c => .control t c) r.values
              state_vector := fillTable p.building.timesteps p.building.states
                (fun t s => .state t s) r.values
              output_vector := fillTable p.building.timesteps p.building.outputs
                (fun t o => .output t o) r.values
              operation_cost := opc
              investment_cost := inv
              storage_size :=
                if p.problem_type = "storage_planning" then r.values .storageSize
                else if p.problem_type = "storage_planning_baseline" then some 0
                else none } := by
  unfold solve at h
  cases hop : p.operation_cost.retrieve r.values with
  | error msg => rw [hop] at h; simp [Except.bind] at h
  | ok opc =>
    rw [hop] at h
    cases hin : p.investment_cost.retrieve r.values with
    | error msg => rw [hin] at h; simp [Except.bind, Except.map] at h
    | ok inv =>
      rw [hin] at h
      simp only [Except.bind, Except.map, Except.ok.injEq] at h
      exact ⟨opc, inv, rfl, rfl, h.symm⟩

/-- Default solve output used when destructing Except values at concrete
inputs. -/
def defaultSolveOutput : SolveOutput :=
  ⟨fun _ _ => none, fun _ _ => none, fun _ _ => none, 0, 0, none⟩

/-- C5 counterexample: on the small problem, a solve in which the solver
left the initial state variable unvalued returns a table whose
corresponding entry is the missing marker (None / NaN), not the claimed
zero sentinel: the 0.0-initialized frame is fully overwritten with raw
solver values. -/
theorem C5_counterexample :
    (solve pW1 ⟨"optimal", fun v => if v = .state 0 "s" then none else some 1⟩).map
        (fun out => out.state_vector 0 "s") = .ok none ∧
    (none : Option ℚ) ≠ some 0 :=
  ⟨rfl, by simp⟩

/-- C5 amended: the trajectory tables returned by a successful solve hold
exactly the raw solver values for every declared (timestep, name) cell: a
valued variable's entry is its solved value, and an unvalued variable's
entry is the missing marker (pandas NaN via assigning None), not the
zero sentinel — the 0.0 initialization is always fully overwritten.  No
error propagates from table filling itself. -/
theorem C5_missing_values (p : Problem) (r : SolverResult) (out : SolveOutput)
    (hout : solve p r = .ok out) :
    (∀ t ∈ p.building.timesteps, ∀ c ∈ p.building.controls,
      out.control_vector t c = r.values (.control t c)) ∧
    (∀ t ∈ p.building.timesteps, ∀ s ∈ p.building.states,
      out.state_vector t s = r.values (.state t s)) ∧
    (∀ t ∈ p.building.timesteps, ∀ o ∈ p.building.outputs,
      out.output_vector t o = r.values (.output t o)) := by
  obtain ⟨opc, inv, hop, hin, hrw⟩ := solve_ok_elim hout
  subst hrw
  refine ⟨fun t ht c hc => ?_, fun t ht s hs => ?_, fun t ht o ho => ?_⟩
  · exact fillTable_get _ _ _ _ _ _ ht hc
  · exact fillTable_get _ _ _ _ _ _ ht hs
  · exact fillTable_get _ _ _ _ _ _ ht ho

/-- Solve output of the small problem when the solver left the initial
state variable unvalued. -/
def outC5 : SolveOutput :=
  okOr defaultSolveOutput
    (solve pW1 ⟨"optimal", fun v => if v = .state 0 "s" then none else some 1⟩)

/-- Witness for the amended C5 on the small problem: a valued control
cell returns the solved value and the unvalued state cell returns the
missing marker. -/
theorem C5_missing_values_witness :
    outC5.state_vector 0 "s" = none ∧ outC5.control_vector 0 "c" = some 1 := by
  have h := C5_missing_values pW1
    ⟨"optimal", fun v => if v = .state 0 "s" then none else some 1⟩
    outC5
    (show solve pW1 ⟨"optimal", fun v => if v = .state 0 "s" then none else some 1⟩ =
      Except.ok outC5 from rfl)
  refine ⟨?_, ?_⟩
  · rw [h.2.1 0 (by decide) "s" (by decide)]
    simp
  · rw [h.1 0 (by decide) "c" (by decide)]
    simp

/-- Successful formulation requires at least two timesteps (the timestep
delta computation indexes the second element). -/
theorem formulate_ok_timesteps {b : Building} {pt : String}
    {ref : Option (Int → String → ℚ)} {sT eT : Option Int} {f : Option ℚ}
    {psT : Option Int} {p : Problem}
    (hf : formulate b pt ref sT eT f psT = .ok p) :
    ∃ t0 t1 rest, b.timesteps = t0 :: t1 :: rest := by
  rcases hb : b.timesteps with _ | ⟨t0, _ | ⟨t1, rest⟩⟩
  · unfold formulate at hf
    rw [hb] at hf
    exact absurd hf (by simp)
  · unfold formulate at hf
    rw [hb] at hf
    exact absurd hf (by simp)
  · exact ⟨t0, t1, rest, rfl⟩

/-- Empty building with a sensible storage type, used for the storage
planning variants (all installation costs zero). -/
def bSP0 : Building where
  timesteps := [0, 3600]
  states := []
  controls := []
  outputs := []
  disturbances := []
  state_matrix := fun _ _ => 0
  control_matrix := fun _ _ => 0
  disturbance_matrix := fun _ _ => 0
  state_output_matrix := fun _ _ => 0
  control_output_matrix := fun _ _ => 0
  disturbance_output_matrix := fun _ _ => 0
  disturbance_timeseries := fun _ _ => 0
  state_vector_initial := fun _ => 0
  output_constraint_timeseries_minimum := fun _ _ => 0
  output_constraint_timeseries_maximum := fun _ _ => 100
  electricity_price_timeseries := fun _ => 1
  building_storage_type := "sensible_thermal_storage"
  storage_battery_depth_of_discharge := 0
  water_density := 1000
  storage_lifetime := 1
  storage_planning_energy_installation_cost := 0
  storage_planning_power_installation_cost := 0
  storage_planning_fixed_installation_cost := 0

/-- Formulated storage planning problem over the empty storage building. -/
def pSP0 : Problem :=
  okOr defaultProblem (formulate bSP0 "storage_planning" none none none none none)

/-- Formulated storage planning baseline problem over the empty storage
building. -/
def pSP0base : Problem :=
  okOr defaultProblem (formulate bSP0 "storage_planning_baseline" none none none none none)

/-- C6: solve() returns the solver's value of the storage size variable
for storage_planning, the fixed literal 0.0 for storage_planning_baseline
and the absent value (None) for every other variant; and a cost
accumulator that stayed a plain number is returned literally, without
symbolic evaluation — in particular the investment cost of the plain
operation variant stays the literal 0. -/
theorem C6_storage_size_and_literal_costs :
    (∀ (p : Problem) (r : SolverResult) (out : SolveOutput), solve p r = .ok out →
      (p.problem_type = "storage_planning" → out.storage_size = r.values .storageSize) ∧
      (p.problem_type = "storage_planning_baseline" → out.storage_size = some 0) ∧
      (p.problem_type ≠ "storage_planning" → p.problem_type ≠ "storage_planning_baseline" →
        out.storage_size = none) ∧
      (∀ q, p.operation_cost = .lit q → out.operation_cost = q) ∧
      (∀ q, p.investment_cost = .lit q → out.investment_cost = q)) ∧
    (∀ b ref sT eT f psT p, formulate b "operation" ref sT eT f psT = .ok p →
      p.investment_cost = Cost.lit 0) := by
  constructor
  · intro p r out hout
    obtain ⟨opc, inv, hop, hin, hrw⟩ := solve_ok_elim hout
    subst hrw
    refine ⟨fun hpt => ?_, fun hpt => ?_, fun h1 h2 => ?_, fun q hq => ?_, fun q hq => ?_⟩
    · simp [hpt]
    · simp [hpt]
    · simp [h1, h2]
    · rw [hq] at hop
      simp only [Cost.retrieve, Except.ok.injEq] at hop
      exact hop.symm
    · rw [hq] at hin
      simp only [Cost.retrieve, Except.ok.injEq] at hin
      exact hin.symm
  · intro b ref sT eT f psT p hf
    obtain ⟨t0, t1, rest, hts⟩ := formulate_ok_timesteps hf
    obtain ⟨aux, price, haux, hpr, hp⟩ := formulate_ok_elim hts hf
    subst hp
    rfl

/-- Solve output of the operation problem (storage size absent). -/
def outC6a : SolveOutput :=
  okOr defaultSolveOutput (solve pW1 ⟨"optimal", fun _ => some 1⟩)

/-- Solve output of the baseline storage problem (storage size fixed 0). -/
def outC6b : SolveOutput :=
  okOr defaultSolveOutput (solve pSP0base ⟨"optimal", fun _ => some 1⟩)

/-- Solve output of the storage planning problem (solved storage size). -/
def outC6c : SolveOutput :=
  okOr defaultSolveOutput (solve pSP0 ⟨"optimal", fun _ => some 3⟩)

/-- Witness for C6 at concrete problems of all three storage-size cases,
plus the literally returned zero costs. -/
theorem C6_storage_size_and_literal_costs_witness :
    outC6c.storage_size = some 3 ∧
    outC6b.storage_size = some 0 ∧
    outC6a.storage_size = none ∧
    outC6a.operation_cost = 0 ∧
    pW1.investment_cost = Cost.lit 0 := by
  have hc := (C6_storage_size_and_literal_costs.1 pSP0 ⟨"optimal", fun _ => some 3⟩ outC6c
    (show solve pSP0 ⟨"optimal", fun _ => some 3⟩ = Except.ok outC6c from rfl)).1 rfl
  have hb := ((C6_storage_size_and_literal_costs.1 pSP0base ⟨"optimal", fun _ => some 1⟩ outC6b
    (show solve pSP0base ⟨"optimal", fun _ => some 1⟩ = Except.ok outC6b from rfl)).2).1 rfl
  have ha := C6_storage_size_and_literal_costs.1 pW1 ⟨"optimal", fun _ => some 1⟩ outC6a
    (show solve pW1 ⟨"optimal", fun _ => some 1⟩ = Except.ok outC6a from rfl)
  have hinv := C6_storage_size_and_literal_costs.2 bW1 none none none none none pW1
    (show formulate bW1 "operation" none none none none none = Except.ok pW1 from rfl)
  exact ⟨hc, hb, ha.2.2.1 (by decide) (by decide), ha.2.2.2.1 0 rfl, hinv⟩

/-- C9: under the price_sensitivity variant, the perturbation multiplies
the price at exactly the target timestep by the factor in the
invocation-local copy of the price series (which feeds cost
accumulation), leaves every other timestep's price equal to the
building's, and the caller-owned building model held by the problem is
the unmodified input building.  A successful formulation also certifies
that the target timestep lies in the horizon. -/
theorem C9_price_perturbation {b : Building} {ref : Option (Int → String → ℚ)}
    {sT eT : Option Int} {f : ℚ} {tau : Int} {p : Problem}
    (hf : formulate b "price_sensitivity" ref sT eT (some f) (some tau) = .ok p) :
    p.building = b ∧ tau ∈ b.timesteps ∧
    p.electricity_price tau = b.electricity_price_timeseries tau * f ∧
    ∀ t, t ≠ tau → p.electricity_price t = b.electricity_price_timeseries t := by
  obtain ⟨t0, t1, rest, hts⟩ := formulate_ok_timesteps hf
  obtain ⟨aux, price, haux, hpr, hp⟩ := formulate_ok_elim hts hf
  subst hp
  simp only [perturbPrice] at hpr
  rw [if_pos trivial] at hpr
  by_cases hmem : tau ∈ b.timesteps
  · rw [if_pos hmem] at hpr
    have hprice : price = fun t =>
        if t = tau then b.electricity_price_timeseries t * f
        else b.electricity_price_timeseries t := by
      cases hpr
      rfl
    refine ⟨rfl, hmem, ?_, ?_⟩
    · show price tau = b.electricity_price_timeseries tau * f
      rw [hprice]
      simp
    · intro t hne
      show price t = b.electricity_price_timeseries t
      rw [hprice]
      simp [hne]
  · rw [if_neg hmem] at hpr
    exact absurd hpr (by simp)

/-- Formulated price sensitivity problem over the electric-output
building: factor 2 at timestep 0. -/
def pC9 : Problem :=
  okOr defaultProblem (formulate bC4 "price_sensitivity" none none none (some 2) (some 0))

/-- Witness for C9 at the concrete price sensitivity problem. -/
theorem C9_price_perturbation_witness :
    pC9.building = bC4 ∧ (0 : Int) ∈ bC4.timesteps ∧
    pC9.electricity_price 0 = bC4.electricity_price_timeseries 0 * 2 ∧
    pC9.electricity_price 3600 = bC4.electricity_price_timeseries 3600 := by
  have h := C9_price_perturbation (b := bC4) (p := pC9) (f := 2)
    (show formulate bC4 "price_sensitivity" none none none (some 2) (some 0) =
      Except.ok pC9 from rfl)
  exact ⟨h.1, h.2.1, h.2.2.1, h.2.2.2 3600 (by decide)⟩

/-- The dynamics-satisfying assignment is feasible for the small
operation problem (constraints and all variable domains). -/
theorem pW1_feasible : pW1.feasible aW1 := by
  refine ⟨aW1_sat, fun v => ?_⟩
  have hpt : pW1.problem_type = "operation" := rfl
  rw [hpt]
  cases v <;> simp [domainOf, Dom.mem, aW1]

/-- C10: every control variable is declared over the non-negative reals
for every variant, so every feasible assignment (hence every solution a
sound solver can return) has a non-negative value for every control
variable. -/
theorem C10_controls_nonnegative (p : Problem) (a : BVar → ℚ) (h : p.feasible a)
    (t : Int) (c : String) :
    domainOf p.problem_type (.control t c) = Dom.nonneg ∧ 0 ≤ a (.control t c) :=
  ⟨rfl, h.2 (.control t c)⟩

/-- Witness for C10 at the small problem's feasible assignment. -/
theorem C10_controls_nonnegative_witness :
    domainOf pW1.problem_type (.control 42 "any") = Dom.nonneg ∧
    0 ≤ aW1 (.control 42 "any") :=
  C10_controls_nonnegative pW1 aW1 pW1_feasible 42 "any"

/-! ### Missing variant parameters (formulation errors) -/

theorem formulate_isOk_false_of_short {b : Building} {pt : String}
    {ref : Option (Int → String → ℚ)} {sT eT : Option Int} {f : Option ℚ}
    {psT : Option Int}
    (h : ¬ ∃ t0 t1 rest, b.timesteps = t0 :: t1 :: rest) :
    (formulate b pt ref sT eT f psT).isOk = false := by
  cases hf : formulate b pt ref sT eT f psT with
  | error m => rfl
  | ok p => exact absurd (formulate_ok_timesteps hf) h

theorem formulate_isOk_false_of_aux_error {b : Building} {pt : String}
    {ref : Option (Int → String → ℚ)} {sT eT : Option Int} {f : Option ℚ}
    {psT : Option Int} {msg : String}
    (haux : auxConstraints b pt sT eT ref = .error msg) :
    (formulate b pt ref sT eT f psT).isOk = false := by
  rcases hb : b.timesteps with _ | ⟨t0, _ | ⟨t1, rest⟩⟩
  · unfold formulate
    rw [hb]
    rfl
  · unfold formulate
    rw [hb]
    rfl
  · unfold formulate
    rw [hb, haux]
    simp [Except.bind, Except.isOk, Except.toBool]

theorem formulate_isOk_false_of_price_error {b : Building} {pt : String}
    {ref : Option (Int → String → ℚ)} {sT eT : Option Int} {f : Option ℚ}
    {psT : Option Int} {msg : String}
    (hpr : perturbPrice b pt psT f = .error msg) :
    (formulate b pt ref sT eT f psT).isOk = false := by
  rcases hb : b.timesteps with _ | ⟨t0, _ | ⟨t1, rest⟩⟩
  · unfold formulate
    rw [hb]
    rfl
  · unfold formulate
    rw [hb]
    rfl
  · unfold formulate
    rw [hb]
    cases haux : auxConstraints b pt sT eT ref with
    | error m => simp [Except.bind, Except.isOk, Except.toBool]
    | ok aux =>
      rw [hpr]
      simp [Except.bind, Except.map, Except.isOk, Except.toBool]

/-- The auxiliary constraint construction for the load_reduction variant
is the timestep loop. -/
theorem aux_lr_eq (b : Building) (sT eT : Option Int)
    (ref : Option (Int → String → ℚ)) :
    auxConstraints b "load_reduction" sT eT ref =
      lrLoop b.outputs sT eT ref [] b.timesteps := by
  simp [auxConstraints, loadReductionConstraints]

/-- A missing start time raises on the first timestep comparison. -/
theorem lrLoop_start_none (outputs : List String) (eT : Option Int)
    (ref : Option (Int → String → ℚ)) (acc : List Constr) (t : Int) (ts : List Int) :
    lrLoop outputs none eT ref acc (t :: ts) =
      .error "TypeError: comparison of Timestamp with NoneType" := rfl

/-- A missing end time raises at the first timestep at or after the start
time, if any. -/
theorem lrLoop_end_none_error (outputs : List String) (st : Int)
    (ref : Option (Int → String → ℚ)) (acc : List Constr) (ts : List Int)
    (h : ∃ t ∈ ts, st ≤ t) :
    ∃ msg, lrLoop outputs (some st) none ref acc ts = .error msg := by
  induction ts generalizing acc with
  | nil => simp at h
  | cons t ts ih =>
    by_cases hst : st ≤ t
    · refine ⟨"TypeError: comparison of Timestamp with NoneType", ?_⟩
      simp [lrLoop, inWindow, hst]
    · obtain ⟨t2, ht2, hle⟩ := h
      rcases List.mem_cons.mp ht2 with h2 | h2
      · exact absurd (h2 ▸ hle) hst
      · have hrec := ih acc ⟨t2, h2, hle⟩
        simpa [lrLoop, inWindow, hst] using hrec

/-- A missing reference trajectory raises as soon as an electric power
output is summed. -/
theorem refDemand_none_error (t : Int) (acc : ℚ) (os : List String)
    (h : ∃ o ∈ os, elecCond o = true) :
    refDemand none t acc os = .error "AttributeError: NoneType has no attribute loc" := by
  induction os generalizing acc with
  | nil => simp at h
  | cons o os ih =>
    by_cases ho : elecCond o
    · simp [refDemand, ho]
    · obtain ⟨o2, ho2, hec⟩ := h
      rcases List.mem_cons.mp ho2 with h2 | h2
      · exact absurd (h2 ▸ hec) (by simpa using ho)
      · simpa [refDemand, ho] using ih (acc + 0) ⟨o2, h2, hec⟩

/-- A missing reference trajectory raises at the first in-window timestep
when there is an electric power output. -/
theorem lrLoop_ref_none_error (outputs : List String) (st et : Int)
    (acc : List Constr) (ts : List Int)
    (h : ∃ t ∈ ts, st ≤ t ∧ t < et) (ho : ∃ o ∈ outputs, elecCond o = true) :
    ∃ msg, lrLoop outputs (some st) (some et) none acc ts = .error msg := by
  induction ts generalizing acc with
  | nil => simp at h
  | cons t ts ih =>
    by_cases hw : st ≤ t ∧ t < et
    · refine ⟨"AttributeError: NoneType has no attribute loc", ?_⟩
      have hdem := refDemand_none_error t 0 outputs ho
      simp [lrLoop, inWindow, hw.1, hw.2, hdem]
    · have hskip : ∃ t2 ∈ ts, st ≤ t2 ∧ t2 < et := by
        obtain ⟨t2, ht2, hcond⟩ := h
        rcases List.mem_cons.mp ht2 with h2 | h2
        · exact absurd (h2 ▸ hcond) hw
        · exact ⟨t2, h2, hcond⟩
      have hrec := ih acc hskip
      by_cases hst : st ≤ t
      · have het : ¬ t < et := fun hlt => hw ⟨hst, hlt⟩
        simpa [lrLoop, inWindow, hst, het] using hrec
      · simpa [lrLoop, inWindow, hst] using hrec

/-- The price perturbation raises when the target timestep is missing. -/
theorem perturbPrice_none_timestep (b : Building) (f : Option ℚ) :
    perturbPrice b "price_sensitivity" none f = .error "KeyError: None not in index" := by
  simp [perturbPrice]

/-- The price perturbation raises when the factor is missing and the
target timestep is in the horizon. -/
theorem perturbPrice_none_factor (b : Building) (tau : Int) (h : tau ∈ b.timesteps) :
    perturbPrice b "price_sensitivity" (some tau) none =
      .error "TypeError: float times NoneType" := by
  simp [perturbPrice, h]

/-- C3 counterexample: a load_reduction invocation missing the required
reference output trajectory, with a start/end window containing no
timestep, constructs the full model without raising — refuting the claim
that every invocation with missing variant-required parameters raises at
formulation time. -/
theorem C3_counterexample :
    (formulate bC4 "load_reduction" none (some 0) (some 0) none none).isOk = true := rfl

/-- C3 amended: construction fails at formulation time exactly when a
missing variant parameter is actually used: for load_reduction, a missing
start time always raises (on the first timestep comparison), a missing
end time raises when some timestep is at or after the start time, and a
missing reference trajectory raises when the reduction window contains a
timestep and some output is an electric power output; for
price_sensitivity, a missing target timestep always raises, and a
missing factor raises when the target timestep lies in the horizon.  In
each case formulation returns no model. -/
theorem C3_missing_parameter_errors :
    (∀ (b : Building) (ref : Option (Int → String → ℚ)) (eT : Option Int)
        (f : Option ℚ) (psT : Option Int),
      (formulate b "load_reduction" ref none eT f psT).isOk = false) ∧
    (∀ (b : Building) (ref : Option (Int → String → ℚ)) (st : Int)
        (f : Option ℚ) (psT : Option Int), (∃ t ∈ b.timesteps, st ≤ t) →
      (formulate b "load_reduction" ref (some st) none f psT).isOk = false) ∧
    (∀ (b : Building) (st et : Int) (f : Option ℚ) (psT : Option Int),
      (∃ t ∈ b.timesteps, st ≤ t ∧ t < et) → (∃ o ∈ b.outputs, elecCond o = true) →
      (formulate b "load_reduction" none (some st) (some et) f psT).isOk = false) ∧
    (∀ (b : Building) (ref : Option (Int → String → ℚ)) (sT eT : Option Int),
      (formulate b "price_sensitivity" ref sT eT none none).isOk = false) ∧
    (∀ (b : Building) (ref : Option (Int → String → ℚ)) (sT eT : Option Int)
        (tau : Int), tau ∈ b.timesteps →
      (formulate b "price_sensitivity" ref sT eT none (some tau)).isOk = false) := by
  refine ⟨?_, ?_, ?_, ?_, ?_⟩
  · intro b ref eT f psT
    rcases hb : b.timesteps with _ | ⟨t0, _ | ⟨t1, rest⟩⟩
    · exact formulate_isOk_false_of_short (by rw [hb]; rintro ⟨_, _, _, h⟩; cases h)
    · exact formulate_isOk_false_of_short (by rw [hb]; rintro ⟨_, _, _, h⟩; simp at h)
    · have hmsg : auxConstraints b "load_reduction" none eT ref =
          .error "TypeError: comparison of Timestamp with NoneType" := by
        rw [aux_lr_eq, hb]
        exact lrLoop_start_none b.outputs eT ref [] t0 (t1 :: rest)
      exact formulate_isOk_false_of_aux_error hmsg
  · intro b ref st f psT h
    obtain ⟨msg, hmsg⟩ := lrLoop_end_none_error b.outputs st ref [] b.timesteps h
    exact formulate_isOk_false_of_aux_error ((aux_lr_eq b (some st) none ref).trans hmsg)
  · intro b st et f psT h ho
    obtain ⟨msg, hmsg⟩ := lrLoop_ref_none_error b.outputs st et [] b.timesteps h ho
    exact formulate_isOk_false_of_aux_error
      ((aux_lr_eq b (some st) (some et) none).trans hmsg)
  · intro b ref sT eT
    exact formulate_isOk_false_of_price_error (perturbPrice_none_timestep b none)
  · intro b ref sT eT tau htau
    exact formulate_isOk_false_of_price_error (perturbPrice_none_factor b tau htau)

/-- Witness for the amended C3: each missing-parameter case evaluated on
the concrete electric-output building fails to construct a model. -/
theorem C3_missing_parameter_errors_witness :
    (formulate bC4 "load_reduction" none none none none none).isOk = false ∧
    (formulate bC4 "load_reduction" none (some 0) none none none).isOk = false ∧
    (formulate bC4 "load_reduction" none (some 0) (some 7200) none none).isOk = false ∧
    (formulate bC4 "price_sensitivity" none none none none none).isOk = false ∧
    (formulate bC4 "price_sensitivity" none none none none (some 0)).isOk = false :=
  ⟨C3_missing_parameter_errors.1 bC4 none none none none,
   C3_missing_parameter_errors.2.1 bC4 none 0 none none ⟨0, by decide, by decide⟩,
   C3_missing_parameter_errors.2.2.1 bC4 0 7200 none none
     ⟨0, by decide, by decide⟩ ⟨"electric_power", by decide, by decide⟩,
   C3_missing_parameter_errors.2.2.2.1 bC4 none none none,
   C3_missing_parameter_errors.2.2.2.2 bC4 none none none 0 (by decide)⟩

/-! ### Output bound shapes (maximum_load pinning) -/

/-- Whether a constraint is a lower bound or pin on output o at timestep
t: an inequality or equality between the output variable and a constant. -/
def isLowerBoundOn (o : String) (t : Int) : Constr → Bool
  | .cge (.var (.output t2 o2)) (.const _) => decide (t2 = t) && decide (o2 = o)
  | .ceq (.var (.output t2 o2)) (.const _) => decide (t2 = t) && decide (o2 = o)
  | _ => false

/-- Whether a constraint pins some output variable to a constant. -/
def isOutputPin : Constr → Bool
  | .ceq (.var (.output _ _)) (.const _) => true
  | _ => false

/-- Shape of the minimum-bound constraints for one (output, timestep)
pair: either the maximum_load temperature pin (away from the initial
timestep) or the plain lower bound. -/
theorem minBound_shape {b : Building} {pt : String} {t0 t : Int} {o : String}
    {c : Constr} (h : c ∈ minBoundConstraints b pt t0 t o) :
    (c = .ceq (.var (.output t o)) (.const (b.output_constraint_timeseries_minimum t o))
      ∧ hasSub o "temperature" = true ∧ pt = "maximum_load" ∧ t ≠ t0) ∨
    ((hasSub o "temperature" && decide (pt = "maximum_load")) = false ∧
      c = .cge (.var (.output t o)) (.const (b.output_constraint_timeseries_minimum t o))) := by
  unfold minBoundConstraints at h
  split at h
  · next hcond =>
    split at h
    · simp at h
    · next hne =>
      simp at h
      rcases Bool.and_eq_true _ _ |>.mp hcond with ⟨h1, h2⟩
      exact Or.inl ⟨h, h1, of_decide_eq_true h2, hne⟩
  · next hcond =>
    simp at h
    exact Or.inr ⟨Bool.not_eq_true _ |>.mp hcond, h⟩

/-- Shape of the maximum-bound constraints: always an upper-bound
inequality (possibly against the storage size term), never an equality or
lower bound. -/
theorem maxBound_shape {b : Building} {pt : String} {t : Int} {o : String}
    {c : Constr} (h : c ∈ maxBoundConstraints b pt t o) :
    ∃ l r, c = .cle l r := by
  unfold maxBoundConstraints at h
  split at h
  · split at h
    · simp at h
      exact ⟨_, _, h⟩
    · split at h
      · simp at h
        exact ⟨_, _, h⟩
      · simp at h
  · simp at h
    exact ⟨_, _, h⟩

/-- The left fold of expression addition never produces a bare variable. -/
theorem foldl_add_ne_var (l : List Expr) (acc : Expr)
    (hacc : ∀ v, acc ≠ .var v) : ∀ v, l.foldl .add acc ≠ .var v := by
  induction l generalizing acc with
  | nil => exact hacc
  | cons x xs ih => exact ih (acc.add x) (fun v h => by cases h)

/-- A Python sum of expressions is never a bare variable. -/
theorem sumExpr_ne_var (l : List Expr) : ∀ v, sumExpr l ≠ .var v :=
  foldl_add_ne_var l (.const 0) (fun v h => by cases h)

/-- The load reduction constraint never pins an output variable (its left
side is a sum, not a variable). -/
theorem lrConstraint_not_pin (outputs : List String) (t : Int) (demand : ℚ) :
    isOutputPin (lrConstraint outputs t demand) = false := by
  unfold lrConstraint isOutputPin
  have h := sumExpr_ne_var (outputs.map fun o =>
    if elecCond o then .var (.output t o) else .const 0)
  split
  · next l r heq =>
    obtain ⟨h1, h2⟩ := Constr.ceq.inj heq
    exact absurd h1 (h _)
  · rfl

/-- Every constraint produced by the load reduction loop is either from
the accumulator or a load reduction constraint. -/
theorem lrLoop_mem {outputs : List String} {sT eT : Option Int}
    {ref : Option (Int → String → ℚ)} {acc res : List Constr} {ts : List Int}
    (h : lrLoop outputs sT eT ref acc ts = .ok res) :
    ∀ c ∈ res, c ∈ acc ∨ ∃ t demand, c = lrConstraint outputs t demand := by
  induction ts generalizing acc with
  | nil =>
    simp only [lrLoop, Except.ok.injEq] at h
    subst h
    exact fun c hc => Or.inl hc
  | cons t ts ih =>
    unfold lrLoop at h
    cases hw : inWindow sT eT t with
    | error m => rw [hw] at h; cases h
    | ok inw =>
      rw [hw] at h
      cases inw with
      | false => exact ih h
      | true =>
        cases hd : refDemand ref t 0 outputs with
        | error m => rw [hd] at h; cases h
        | ok demand =>
          rw [hd] at h
          intro c hc
          rcases ih h c hc with hin | hlr
          · rcases List.mem_append.mp hin with h2 | h2
            · exact Or.inl h2
            · simp only [List.mem_singleton] at h2
              exact Or.inr ⟨t, demand, h2⟩
          · exact Or.inr hlr

/-- No auxiliary constraint of any variant pins an output variable. -/
theorem aux_no_pin {b : Building} {pt : String} {sT eT : Option Int}
    {ref : Option (Int → String → ℚ)} {aux : List Constr}
    (h : auxConstraints b pt sT eT ref = .ok aux) :
    ∀ c ∈ aux, isOutputPin c = false := by
  unfold auxConstraints at h
  split at h
  · simp only [Except.ok.injEq] at h
    subst h
    intro c hc
    simp only [storageAuxConstraints, List.mem_flatMap] at hc
    obtain ⟨t, ht, hmem⟩ := hc
    rcases List.mem_cons.mp hmem with rfl | hmem2
    · rfl
    · rcases List.mem_singleton.mp hmem2 with rfl
      rfl
  · split at h
    · intro c hc
      rcases lrLoop_mem h c hc with hin | ⟨t, demand, rfl⟩
      · cases hin
      · exact lrConstraint_not_pin b.outputs t demand
    · simp only [Except.ok.injEq] at h
      subst h
      intro c hc
      cases hc

/-- C8: under maximum_load — and only that variant — every output whose
name contains 'temperature' is pinned by an equality to its minimum-bound
value at every timestep except the initial one, where neither the pin nor
the minimum-bound inequality exists; all non-temperature outputs keep the
minimum-bound inequality at every timestep, and under every other variant
all outputs keep it (and no output-pinning equality exists at all). -/
theorem C8_maximum_load_pinning {b : Building} {pt : String}
    {ref : Option (Int → String → ℚ)} {sT eT : Option Int} {f : Option ℚ}
    {psT : Option Int} {p : Problem} {t0 t1 : Int} {rest : List Int}
    (hts : b.timesteps = t0 :: t1 :: rest)
    (hf : formulate b pt ref sT eT f psT = .ok p) :
    (pt = "maximum_load" →
      (∀ o ∈ b.outputs, hasSub o "temperature" = true →
        ∀ t ∈ b.timesteps, t ≠ t0 →
          Constr.ceq (.var (.output t o))
            (.const (b.output_constraint_timeseries_minimum t o)) ∈ p.constraints) ∧
      (∀ o ∈ b.outputs, hasSub o "temperature" = true →
        ∀ c ∈ p.constraints, isLowerBoundOn o t0 c = false) ∧
      (∀ o ∈ b.outputs, hasSub o "temperature" = false →
        ∀ t ∈ b.timesteps,
          Constr.cge (.var (.output t o))
            (.const (b.output_constraint_timeseries_minimum t o)) ∈ p.constraints)) ∧
    (pt ≠ "maximum_load" →
      (∀ o ∈ b.outputs, ∀ t ∈ b.timesteps,
        Constr.cge (.var (.output t o))
          (.const (b.output_constraint_timeseries_minimum t o)) ∈ p.constraints) ∧
      (∀ c ∈ p.constraints, isOutputPin c = false)) := by
  obtain ⟨aux, price, haux, hpr, hp⟩ := formulate_ok_elim hts hf
  subst hp
  constructor
  · intro hpt
    subst hpt
    have hauxnil : aux = [] := by
      simp [auxConstraints] at haux
      exact haux
    subst hauxnil
    refine ⟨?_, ?_, ?_⟩
    · intro o ho htemp t ht hne
      have hm : Constr.ceq (.var (.output t o))
          (.const (b.output_constraint_timeseries_minimum t o))
          ∈ minBoundConstraints b "maximum_load" t0 t o := by
        simp [minBoundConstraints, htemp, hne]
      have hbd : Constr.ceq (.var (.output t o))
          (.const (b.output_constraint_timeseries_minimum t o))
          ∈ boundConstraints b "maximum_load" t0 := by
        simp only [boundConstraints, List.mem_flatMap]
        exact ⟨o, ho, t, ht, List.mem_append.mpr (Or.inl hm)⟩
      simp only [List.mem_append]
      exact Or.inl (Or.inr hbd)
    · intro o ho htemp c hc
      simp only [List.mem_append] at hc
      rcases hc with (((h | h) | h) | h) | h
      · obtain ⟨s, hs, rfl⟩ := List.mem_map.mp h
        rfl
      · simp only [transitionConstraints, List.mem_flatMap, List.mem_map] at h
        obtain ⟨s, hs, t, ht, rfl⟩ := h
        rfl
      · simp only [outputEqConstraints, List.mem_flatMap, List.mem_map] at h
        obtain ⟨o2, ho2, t, ht, rfl⟩ := h
        rfl
      · simp only [boundConstraints, List.mem_flatMap] at h
        obtain ⟨o2, ho2, t, ht, h3⟩ := h
        rcases List.mem_append.mp h3 with h4 | h4
        · rcases minBound_shape h4 with ⟨rfl, htm2, hptm, hne⟩ | ⟨hcond, rfl⟩
          · simp [isLowerBoundOn, hne]
          · have ho2temp : hasSub o2 "temperature" = false := by
              simpa using hcond
            have hne2 : o2 ≠ o := fun he => by
              rw [he, htemp] at ho2temp
              cases ho2temp
            simp [isLowerBoundOn, hne2]
        · obtain ⟨l, r, rfl⟩ := maxBound_shape h4
          rfl
      · cases h
    · intro o ho htemp t ht
      have hm : Constr.cge (.var (.output t o))
          (.const (b.output_constraint_timeseries_minimum t o))
          ∈ minBoundConstraints b "maximum_load" t0 t o := by
        simp [minBoundConstraints, htemp]
      have hbd : Constr.cge (.var (.output t o))
          (.const (b.output_constraint_timeseries_minimum t o))
          ∈ boundConstraints b "maximum_load" t0 := by
        simp only [boundConstraints, List.mem_flatMap]
        exact ⟨o, ho, t, ht, List.mem_append.mpr (Or.inl hm)⟩
      simp only [List.mem_append]
      exact Or.inl (Or.inr hbd)
  · intro hpt
    refine ⟨?_, ?_⟩
    · intro o ho t ht
      have hm : Constr.cge (.var (.output t o))
          (.const (b.output_constraint_timeseries_minimum t o))
          ∈ minBoundConstraints b pt t0 t o := by
        simp [minBoundConstraints, hpt]
      have hbd : Constr.cge (.var (.output t o))
          (.const (b.output_constraint_timeseries_minimum t o))
          ∈ boundConstraints b pt t0 := by
        simp only [boundConstraints, List.mem_flatMap]
        exact ⟨o, ho, t, ht, List.mem_append.mpr (Or.inl hm)⟩
      simp only [List.mem_append]
      exact Or.inl (Or.inr hbd)
    · intro c hc
      simp only [List.mem_append] at hc
      rcases hc with (((h | h) | h) | h) | h
      · obtain ⟨s, hs, rfl⟩ := List.mem_map.mp h
        rfl
      · simp only [transitionConstraints, List.mem_flatMap, List.mem_map] at h
        obtain ⟨s, hs, t, ht, rfl⟩ := h
        rfl
      · simp only [outputEqConstraints, List.mem_flatMap, List.mem_map] at h
        obtain ⟨o2, ho2, t, ht, rfl⟩ := h
        rfl
      · simp only [boundConstraints, List.mem_flatMap] at h
        obtain ⟨o2, ho2, t, ht, h3⟩ := h
        rcases List.mem_append.mp h3 with h4 | h4
        · rcases minBound_shape h4 with ⟨rfl, htm2, hptm, hne⟩ | ⟨hcond, rfl⟩
          · exact absurd hptm hpt
          · rfl
        · obtain ⟨l, r, rfl⟩ := maxBound_shape h4
          rfl
      · exact aux_no_pin haux c h

/-- Building with a temperature output and a grid electric power output. -/
def bML : Building where
  timesteps := [0, 3600]
  states := []
  controls := []
  outputs := ["zone_temperature", "grid_electric_power"]
  disturbances := []
  state_matrix := fun _ _ => 0
  control_matrix := fun _ _ => 0
  disturbance_matrix := fun _ _ => 0
  state_output_matrix := fun _ _ => 0
  control_output_matrix := fun _ _ => 0
  disturbance_output_matrix := fun _ _ => 0
  disturbance_timeseries := fun _ _ => 0
  state_vector_initial := fun _ => 0
  output_constraint_timeseries_minimum := fun _ _ => 20
  output_constraint_timeseries_maximum := fun _ _ => 100
  electricity_price_timeseries := fun _ => 1
  building_storage_type := ""
  storage_battery_depth_of_discharge := 0
  water_density := 0
  storage_lifetime := 0
  storage_planning_energy_installation_cost := 0
  storage_planning_power_installation_cost := 0
  storage_planning_fixed_installation_cost := 0

/-- Formulated maximum_load problem over the temperature building. -/
def pML : Problem :=
  okOr defaultProblem (formulate bML "maximum_load" none none none none none)

/-- Witness for C8: on the concrete maximum_load problem the temperature
output is pinned at the non-initial timestep, has no lower bound or pin
at the initial timestep, and the non-temperature output keeps its lower
bound; on the concrete operation problem the lower bound is present and
no pin exists. -/
theorem C8_maximum_load_pinning_witness :
    Constr.ceq (.var (.output 3600 "zone_temperature"))
      (.const (bML.output_constraint_timeseries_minimum 3600 "zone_temperature"))
      ∈ pML.constraints ∧
    pML.constraints.all (fun c => !(isLowerBoundOn "zone_temperature" 0 c)) = true ∧
    Constr.cge (.var (.output 0 "grid_electric_power"))
      (.const (bML.output_constraint_timeseries_minimum 0 "grid_electric_power"))
      ∈ pML.constraints ∧
    Constr.cge (.var (.output 0 "electric_power"))
      (.const (bC4.output_constraint_timeseries_minimum 0 "electric_power"))
      ∈ pC4.constraints ∧
    pC4.constraints.all (fun c => !(isOutputPin c)) = true := by
  have h := C8_maximum_load_pinning (b := bML) (p := pML) rfl
    (show formulate bML "maximum_load" none none none none none = Except.ok pML from rfl)
  have h2 := C8_maximum_load_pinning (b := bC4) (p := pC4) rfl
    (show formulate bC4 "operation" none none none none none = Except.ok pC4 from rfl)
  refine ⟨?_, ?_, ?_, ?_, ?_⟩
  · exact (h.1 rfl).1 "zone_temperature" (by decide) (by decide) 3600 (by decide) (by decide)
  · rw [List.all_eq_true]
    intro c hc
    have hlb := (h.1 rfl).2.1 "zone_temperature" (by decide) (by decide) c hc
    simp [hlb]
  · exact (h.1 rfl).2.2 "grid_electric_power" (by decide) (by decide) 0 (by decide)
  · exact (h2.2 (by decide)).1 "electric_power" (by decide) 0 (by decide)
  · rw [List.all_eq_true]
    intro c hc
    have hpin := (h2.2 (by decide)).2 c hc
    simp [hpin]

/-! ### Variable usage and assignment updates (storage planning) -/

/-- Whether a cost accumulator mentions a given variable. -/
def Cost.uses (v : BVar) : Cost → Bool
  | .lit _ => false
  | .expr e => e.uses v

theorem eval_update_of_not_uses (e : Expr) (v : BVar) (a : BVar → ℚ) (q : ℚ)
    (h : e.uses v = false) : e.eval (Function.update a v q) = e.eval a := by
  induction e with
  | const q2 => rfl
  | var w =>
    simp only [Expr.uses, decide_eq_false_iff_not] at h
    simp [Expr.eval, Function.update_noteq h]
  | add x y ihx ihy =>
    simp only [Expr.uses, Bool.or_eq_false_iff] at h
    simp [Expr.eval, ihx h.1, ihy h.2]
  | smul q2 e ih =>
    simp only [Expr.uses] at h
    simp [Expr.eval, ih h]

theorem constr_sat_update_of_not_uses (c : Constr) (v : BVar) (a : BVar → ℚ) (q : ℚ)
    (h : c.uses v = false) : c.sat (Function.update a v q) ↔ c.sat a := by
  cases c <;>
    (simp only [Constr.uses, Bool.or_eq_false_iff] at h
     simp [Constr.sat, eval_update_of_not_uses _ _ a q h.1,
       eval_update_of_not_uses _ _ a q h.2])

theorem cost_eval_update_of_not_uses (c : Cost) (v : BVar) (a : BVar → ℚ) (q : ℚ)
    (h : c.uses v = false) : c.eval (Function.update a v q) = c.eval a := by
  cases c with
  | lit q2 => rfl
  | expr e => exact eval_update_of_not_uses e v a q h

theorem foldl_add_uses_false (v : BVar) (l : List Expr) (acc : Expr)
    (hacc : acc.uses v = false) (h : ∀ e ∈ l, e.uses v = false) :
    (l.foldl .add acc).uses v = false := by
  induction l generalizing acc with
  | nil => exact hacc
  | cons x xs ih =>
    refine ih (acc.add x) ?_ (fun e he => h e (List.mem_cons_of_mem x he))
    simp [Expr.uses, hacc, h x (List.mem_cons_self x xs)]

theorem sumExpr_uses_false (v : BVar) (l : List Expr) (h : ∀ e ∈ l, e.uses v = false) :
    (sumExpr l).uses v = false :=
  foldl_add_uses_false v l (.const 0) rfl h

theorem transitionRHS_uses_exists (b : Building) (t : Int) (s : String) :
    (transitionRHS b t s).uses .storageExists = false := by
  have h1 : (sumExpr (b.states.map fun s2 =>
      Expr.smul (b.state_matrix s s2) (.var (.state t s2)))).uses .storageExists = false := by
    refine sumExpr_uses_false _ _ (fun e he => ?_)
    obtain ⟨s2, _, rfl⟩ := List.mem_map.mp he
    rfl
  have h2 : (sumExpr (b.controls.map fun c2 =>
      Expr.smul (b.control_matrix s c2) (.var (.control t c2)))).uses .storageExists = false := by
    refine sumExpr_uses_false _ _ (fun e he => ?_)
    obtain ⟨c2, _, rfl⟩ := List.mem_map.mp he
    rfl
  simp [transitionRHS, Expr.uses, h1, h2]

theorem outputRHS_uses_exists (b : Building) (t : Int) (o : String) :
    (outputRHS b t o).uses .storageExists = false := by
  have h1 : (sumExpr (b.states.map fun s2 =>
      Expr.smul (b.state_output_matrix o s2) (.var (.state t s2)))).uses .storageExists = false := by
    refine sumExpr_uses_false _ _ (fun e he => ?_)
    obtain ⟨s2, _, rfl⟩ := List.mem_map.mp he
    rfl
  have h2 : (sumExpr (b.controls.map fun c2 =>
      Expr.smul (b.control_output_matrix o c2) (.var (.control t c2)))).uses .storageExists = false := by
    refine sumExpr_uses_false _ _ (fun e he => ?_)
    obtain ⟨c2, _, rfl⟩ := List.mem_map.mp he
    rfl
  simp [outputRHS, Expr.uses, h1, h2]

theorem maxBound_not_uses_exists {b : Building} {pt : String} {t : Int} {o : String}
    {c : Constr} (h : c ∈ maxBoundConstraints b pt t o) :
    c.uses .storageExists = false := by
  unfold maxBoundConstraints at h
  split at h
  · split at h
    · simp at h
      subst h
      simp only [Constr.uses, Expr.uses, storageSizeTerm]
      split <;> rfl
    · split at h
      · simp at h
        subst h
        simp only [Constr.uses, Expr.uses, storageSizeTerm]
        split <;> rfl
      · simp at h
  · simp at h
    subst h
    rfl

theorem minBound_not_uses_exists {b : Building} {pt : String} {t0 t : Int} {o : String}
    {c : Constr} (h : c ∈ minBoundConstraints b pt t0 t o) :
    c.uses .storageExists = false := by
  rcases minBound_shape h with ⟨rfl, _, _, _⟩ | ⟨_, rfl⟩ <;> rfl

/-- The storage existence big-M constraint. -/
def bigMConstraint : Constr :=
  .cle (.var .storageSize) (.smul LARGE_CONSTANT (.var .storageExists))

/-- Shape of the storage planning auxiliary constraints: per timestep,
the peak power bound and then the big-M existence constraint. -/
theorem mem_storageAux_shape {b : Building} {c : Constr}
    (h : c ∈ storageAuxConstraints b) :
    (∃ t, c = .cle
      (sumExpr (b.outputs.map fun o =>
        if hasSub o "storage_charge" && hasSub o "electric_power"
        then .var (.output t o) else .const 0))
      (.var .storagePeakPower)) ∨
    c = bigMConstraint := by
  simp only [storageAuxConstraints, List.mem_flatMap] at h
  obtain ⟨t, ht, hmem⟩ := h
  rcases List.mem_cons.mp hmem with rfl | hmem2
  · exact Or.inl ⟨t, rfl⟩
  · rcases List.mem_singleton.mp hmem2 with rfl
    exact Or.inr rfl

theorem peak_not_uses_exists (b : Building) (t : Int) :
    (Constr.cle
      (sumExpr (b.outputs.map fun o =>
        if hasSub o "storage_charge" && hasSub o "electric_power"
        then Expr.var (.output t o) else .const 0))
      (.var .storagePeakPower)).uses .storageExists = false := by
  have h1 : (sumExpr (b.outputs.map fun o =>
      if hasSub o "storage_charge" && hasSub o "electric_power"
      then Expr.var (.output t o) else .const 0)).uses .storageExists = false := by
    refine sumExpr_uses_false _ _ (fun e he => ?_)
    obtain ⟨o, _, rfl⟩ := List.mem_map.mp he
    split <;> rfl
  simp only [Constr.uses]
  rw [h1]
  rfl

/-- Every constraint of a formulated storage planning problem is the
big-M existence constraint or does not mention the storage existence
variable. -/
theorem storage_constraints_dichotomy {b : Building}
    {ref : Option (Int → String → ℚ)} {sT eT : Option Int} {f : Option ℚ}
    {psT : Option Int} {p : Problem} {t0 t1 : Int} {rest : List Int}
    (hts : b.timesteps = t0 :: t1 :: rest)
    (hf : formulate b "storage_planning" ref sT eT f psT = .ok p) :
    ∀ c ∈ p.constraints, c = bigMConstraint ∨ c.uses .storageExists = false := by
  obtain ⟨aux, price, haux, hpr, hp⟩ := formulate_ok_elim hts hf
  subst hp
  have hauxeq : aux = storageAuxConstraints b := by
    simp [auxConstraints] at haux
    exact haux.symm
  subst hauxeq
  intro c hc
  simp only [List.mem_append] at hc
  rcases hc with (((h | h) | h) | h) | h
  · obtain ⟨s, hs, rfl⟩ := List.mem_map.mp h
    exact Or.inr rfl
  · simp only [transitionConstraints, List.mem_flatMap, List.mem_map] at h
    obtain ⟨s, hs, t, ht, rfl⟩ := h
    refine Or.inr ?_
    simp only [Constr.uses]
    rw [transitionRHS_uses_exists]
    rfl
  · simp only [outputEqConstraints, List.mem_flatMap, List.mem_map] at h
    obtain ⟨o2, ho2, t, ht, rfl⟩ := h
    refine Or.inr ?_
    simp only [Constr.uses]
    rw [outputRHS_uses_exists]
    rfl
  · simp only [boundConstraints, List.mem_flatMap] at h
    obtain ⟨o2, ho2, t, ht, h3⟩ := h
    rcases List.mem_append.mp h3 with h4 | h4
    · exact Or.inr (minBound_not_uses_exists h4)
    · exact Or.inr (maxBound_not_uses_exists h4)
  · rcases mem_storageAux_shape h with ⟨t, rfl⟩ | rfl
    · exact Or.inr (peak_not_uses_exists b t)
    · exact Or.inl rfl

theorem cost_addE_uses (v : BVar) (c : Cost) (e : Expr) :
    Cost.uses v (c.addE e) = (Cost.uses v c || e.uses v) := by
  cases c <;> simp [Cost.addE, Cost.uses, Expr.uses]

theorem cost_fold_uses {α : Type} (v : BVar) (g : α → Option Expr)
    (l : List α) (c : Cost) (hg : ∀ x e, g x = some e → e.uses v = false)
    (hc : Cost.uses v c = false) :
    Cost.uses v (l.foldl (fun acc x => match g x with | some e => acc.addE e | none => acc) c)
      = false := by
  induction l generalizing c with
  | nil => exact hc
  | cons x xs ih =>
    rw [List.foldl_cons]
    cases hgx : g x with
    | none => simpa [hgx] using ih c hc
    | some e =>
      have hstep : Cost.uses v (c.addE e) = false := by
        rw [cost_addE_uses, hc, hg x e hgx]
        rfl
      simpa [hgx] using ih (c.addE e) hstep

theorem cost_double_fold_uses (v : BVar) (g : Int → String → Option Expr)
    (ts : List Int) (os : List String) (c : Cost)
    (hg : ∀ t o e, g t o = some e → e.uses v = false) (hc : Cost.uses v c = false) :
    Cost.uses v (ts.foldl
      (fun acc t =>
        os.foldl (fun acc2 o => match g t o with | some e => acc2.addE e | none => acc2) acc)
      c) = false := by
  induction ts generalizing c with
  | nil => exact hc
  | cons t ts ih =>
    rw [List.foldl_cons]
    exact ih _ (cost_fold_uses v (g t) os c (fun o e => hg t o e) hc)

theorem opTerm_uses_exists (pt : String) (price : Int → ℚ) (delta : Int)
    (factor : ℚ) (t : Int) (o : String) (e : Expr)
    (h : opTerm pt price delta factor t o = some e) : e.uses .storageExists = false := by
  unfold opTerm at h
  split at h
  · split at h
    · cases h
      rfl
    · cases h
  · split at h
    · cases h
      rfl
    · cases h

theorem operationCost_uses_exists (b : Building) (pt : String) (price : Int → ℚ)
    (delta : Int) (factor : ℚ) :
    Cost.uses .storageExists (operationCost b pt price delta factor) = false :=
  cost_double_fold_uses .storageExists (opTerm pt price delta factor)
    b.timesteps b.outputs (.lit 0)
    (fun t o e => opTerm_uses_exists pt price delta factor t o e) rfl

theorem sensibleInvestment_eval_update (b : Building) (a : BVar → ℚ) :
    (sensibleInvestment b).eval (Function.update a .storageExists 0) =
      (sensibleInvestment b).eval a
        - b.storage_planning_fixed_installation_cost * a .storageExists := by
  simp [sensibleInvestment, Expr.eval, Function.update]

theorem batteryInvestment_eval_update (b : Building) (a : BVar → ℚ) :
    (batteryInvestment b).eval (Function.update a .storageExists 0) =
      (batteryInvestment b).eval a
        - b.storage_planning_fixed_installation_cost * a .storageExists := by
  simp [batteryInvestment, Expr.eval, Function.update]

/-- C7: for a formulated storage planning problem, every feasible
assignment satisfies the big-M relation storage_size ≤ storage_exists ×
LARGE_CONSTANT with non-negative storage size and peak power and binary
storage existence; and — provided the fixed installation cost is
positive and the storage medium is sensible or battery, so the fixed
cost term actually appears in the objective — every optimal assignment
with storage size 0 has storage_exists = 0. -/
theorem C7_storage_planning {b : Building}
    {ref : Option (Int → String → ℚ)} {sT eT : Option Int} {f : Option ℚ}
    {psT : Option Int} {p : Problem} {t0 t1 : Int} {rest : List Int}
    (hts : b.timesteps = t0 :: t1 :: rest)
    (hf : formulate b "storage_planning" ref sT eT f psT = .ok p)
    (a : BVar → ℚ) :
    (p.feasible a →
      a .storageSize ≤ a .storageExists * LARGE_CONSTANT ∧
      0 ≤ a .storageSize ∧ 0 ≤ a .storagePeakPower ∧
      (a .storageExists = 0 ∨ a .storageExists = 1)) ∧
    ((hasSub b.building_storage_type "sensible" = true ∨
      hasSub b.building_storage_type "battery" = true) →
     0 < b.storage_planning_fixed_installation_cost →
     p.optimal a → a .storageSize = 0 → a .storageExists = 0) := by
  obtain ⟨aux, price, haux, hpr, hp⟩ := formulate_ok_elim hts hf
  have hauxeq : aux = storageAuxConstraints b := by
    simp [auxConstraints] at haux
    exact haux.symm
  subst hauxeq
  have hpc : p.constraints =
      (initialConstraints b t0 ++ transitionConstraints b (t1 - t0)
        ++ outputEqConstraints b ++ boundConstraints b "storage_planning" t0)
        ++ storageAuxConstraints b := by rw [hp]
  have hpo : p.operation_cost = operationCost b "storage_planning" price (t1 - t0)
      (operationCostFactor b "storage_planning" (t1 - t0)) := by rw [hp]
  have hpi : p.investment_cost = investmentCost b "storage_planning" := by rw [hp]
  have hpt2 : p.problem_type = "storage_planning" := by rw [hp]
  constructor
  · intro hfeas
    have hd : ∀ v, Dom.mem (domainOf "storage_planning" v) (a v) := by
      rw [← hpt2]
      exact hfeas.2
    have hbig : bigMConstraint ∈ p.constraints := by
      rw [hpc]
      refine List.mem_append.mpr (Or.inr ?_)
      simp only [storageAuxConstraints, List.mem_flatMap]
      exact ⟨t0, by rw [hts]; exact List.mem_cons_self _ _, by simp [bigMConstraint]⟩
    have hsat : a .storageSize ≤ LARGE_CONSTANT * a .storageExists := hfeas.1 _ hbig
    exact ⟨by simpa [mul_comm] using hsat, hd .storageSize,
      hd .storagePeakPower, hd .storageExists⟩
  · intro hmed hfix hopt hsize
    have hfeas := hopt.1
    have hd : ∀ v, Dom.mem (domainOf "storage_planning" v) (a v) := by
      rw [← hpt2]
      exact hfeas.2
    rcases (show a .storageExists = 0 ∨ a .storageExists = 1 from
      hd .storageExists) with h0 | h1
    · exact h0
    · exfalso
      have hfeas2 : p.feasible (Function.update a .storageExists 0) := by
        constructor
        · intro c hc
          rcases storage_constraints_dichotomy hts hf c hc with rfl | huse
          · have hs1 : Function.update a .storageExists 0 .storageSize = 0 := by
              rw [Function.update_noteq (by decide), hsize]
            have hs2 : Function.update a .storageExists 0 .storageExists = 0 := by
              simp
            show Constr.sat (Function.update a .storageExists 0) bigMConstraint
            simp [bigMConstraint, Constr.sat, Expr.eval, hs1, hs2, hsize]
          · exact (constr_sat_update_of_not_uses c _ a 0 huse).mpr (hfeas.1 c hc)
        · intro v
          rw [hpt2]
          by_cases hv : v = .storageExists
          · subst hv
            simp only [Function.update_same]
            exact Or.inl rfl
          · rw [Function.update_noteq hv]
            exact hd v
      have hle := hopt.2 _ hfeas2
      have hop : (operationCost b "storage_planning" price (t1 - t0)
            (operationCostFactor b "storage_planning" (t1 - t0))).eval
            (Function.update a .storageExists 0)
          = (operationCost b "storage_planning" price (t1 - t0)
            (operationCostFactor b "storage_planning" (t1 - t0))).eval a :=
        cost_eval_update_of_not_uses _ _ a 0 (operationCost_uses_exists b _ price _ _)
      have hinv : (investmentCost b "storage_planning").eval
            (Function.update a .storageExists 0)
          = (investmentCost b "storage_planning").eval a
            - b.storage_planning_fixed_installation_cost * a .storageExists := by
        by_cases hsen : hasSub b.building_storage_type "sensible"
        · have heq : investmentCost b "storage_planning" =
              Cost.addE (.lit 0) (sensibleInvestment b) := by
            simp [investmentCost, hsen]
          rw [heq]
          show (Expr.add (.const 0) (sensibleInvestment b)).eval _ =
            (Expr.add (.const 0) (sensibleInvestment b)).eval a - _
          simp only [Expr.eval, sensibleInvestment]
          simp [Function.update]
        · have hbat : hasSub b.building_storage_type "battery" = true := by
            rcases hmed with h | h
            · exact absurd h hsen
            · exact h
          have heq : investmentCost b "storage_planning" =
              Cost.addE (.lit 0) (batteryInvestment b) := by
            simp only [Bool.not_eq_true] at hsen
            simp [investmentCost, hsen, hbat]
          rw [heq]
          show (Expr.add (.const 0) (batteryInvestment b)).eval _ =
            (Expr.add (.const 0) (batteryInvestment b)).eval a - _
          simp only [Expr.eval, batteryInvestment]
          simp [Function.update]
      have hobj : p.objective (Function.update a .storageExists 0) =
          p.objective a
            - b.storage_planning_fixed_installation_cost * a .storageExists := by
        unfold Problem.objective
        rw [hpo, hpi, hop, hinv]
        ring
      rw [hobj, h1] at hle
      have : (0 : ℚ) < b.storage_planning_fixed_installation_cost := hfix
      linarith

/-- Assignment with storage existence 1 but storage size 0. -/
def aC7 : BVar → ℚ := fun v => if v = .storageExists then 1 else 0

/-- Concrete constraint list of the formulated storage planning problem
over the empty storage building: per timestep, the (degenerate) peak
power bound and the big-M existence constraint. -/
theorem pSP0_constraints :
    pSP0.constraints =
      [.cle (sumExpr []) (.var .storagePeakPower), bigMConstraint,
       .cle (sumExpr []) (.var .storagePeakPower), bigMConstraint] := rfl

/-- Every assignment has objective 0 on the zero-cost storage planning
problem. -/
theorem pSP0_objective_zero (a3 : BVar → ℚ) : pSP0.objective a3 = 0 := by
  show Cost.eval a3 pSP0.operation_cost + Cost.eval a3 pSP0.investment_cost = 0
  rw [show pSP0.operation_cost = Cost.lit 0 from rfl,
    show pSP0.investment_cost = Cost.addE (.lit 0) (sensibleInvestment bSP0) from rfl]
  simp [Cost.eval, Cost.addE, Expr.eval, sensibleInvestment,
    show bSP0.storage_planning_energy_installation_cost = 0 from rfl,
    show bSP0.storage_planning_power_installation_cost = 0 from rfl,
    show bSP0.storage_planning_fixed_installation_cost = 0 from rfl]

/-- C7 counterexample: on the storage planning problem with all
installation costs zero, the assignment with storage size 0 and storage
existence 1 is optimal (every feasible assignment has the same zero
objective), so an optimal storage size of 0 does not force the solved
storage_exists to 0 as the claim asserts. -/
theorem C7_counterexample :
    formulate bSP0 "storage_planning" none none none none none = .ok pSP0 ∧
    pSP0.optimal aC7 ∧ aC7 BVar.storageSize = 0 ∧ aC7 BVar.storageExists = 1 := by
  refine ⟨rfl, ⟨⟨?_, ?_⟩, ?_⟩, rfl, rfl⟩
  · intro c hc
    rw [pSP0_constraints] at hc
    simp only [List.mem_cons, List.not_mem_nil, or_false] at hc
    rcases hc with rfl | rfl | rfl | rfl
    · simp [Constr.sat, Expr.eval, sumExpr, aC7]
    · show Constr.sat aC7 bigMConstraint
      simp [bigMConstraint, Constr.sat, Expr.eval, aC7, LARGE_CONSTANT]
    · simp [Constr.sat, Expr.eval, sumExpr, aC7]
    · show Constr.sat aC7 bigMConstraint
      simp [bigMConstraint, Constr.sat, Expr.eval, aC7, LARGE_CONSTANT]
  · intro v
    have hpt : pSP0.problem_type = "storage_planning" := rfl
    rw [hpt]
    cases v <;> simp [domainOf, Dom.mem, aC7]
  · intro a2 _
    rw [pSP0_objective_zero aC7, pSP0_objective_zero a2]

/-- Storage building with a positive fixed installation cost. -/
def bSP5 : Building :=
  { bSP0 with storage_planning_fixed_installation_cost := 5 }

/-- Formulated storage planning problem with positive fixed cost. -/
def pSP5 : Problem :=
  okOr defaultProblem (formulate bSP5 "storage_planning" none none none none none)

/-- The all-zero assignment. -/
def aZ : BVar → ℚ := fun _ => 0

/-- Objective of the positive-fixed-cost storage planning problem: the
fixed cost times the storage existence variable. -/
theorem pSP5_objective (a3 : BVar → ℚ) :
    pSP5.objective a3 = 5 * a3 .storageExists := by
  show Cost.eval a3 pSP5.operation_cost + Cost.eval a3 pSP5.investment_cost = _
  rw [show pSP5.operation_cost = Cost.lit 0 from rfl,
    show pSP5.investment_cost = Cost.addE (.lit 0) (sensibleInvestment bSP5) from rfl]
  simp [Cost.eval, Cost.addE, Expr.eval, sensibleInvestment,
    show bSP5.storage_planning_energy_installation_cost = 0 from rfl,
    show bSP5.storage_planning_power_installation_cost = 0 from rfl,
    show bSP5.storage_planning_fixed_installation_cost = 5 from rfl]

/-- The all-zero assignment is optimal on the positive-fixed-cost storage
planning problem. -/
theorem pSP5_optimal_aZ : pSP5.optimal aZ := by
  refine ⟨⟨?_, ?_⟩, ?_⟩
  · intro c hc
    rw [show pSP5.constraints =
      [.cle (sumExpr []) (.var .storagePeakPower), bigMConstraint,
       .cle (sumExpr []) (.var .storagePeakPower), bigMConstraint] from rfl] at hc
    simp only [List.mem_cons, List.not_mem_nil, or_false] at hc
    rcases hc with rfl | rfl | rfl | rfl
    · simp [Constr.sat, Expr.eval, sumExpr, aZ]
    · show Constr.sat aZ bigMConstraint
      simp [bigMConstraint, Constr.sat, Expr.eval, aZ]
    · simp [Constr.sat, Expr.eval, sumExpr, aZ]
    · show Constr.sat aZ bigMConstraint
      simp [bigMConstraint, Constr.sat, Expr.eval, aZ]
  · intro v
    have hpt : pSP5.problem_type = "storage_planning" := rfl
    rw [hpt]
    cases v <;> simp [domainOf, Dom.mem, aZ]
  · intro a2 hf2
    rw [pSP5_objective aZ, pSP5_objective a2]
    have hbin : a2 .storageExists = 0 ∨ a2 .storageExists = 1 := by
      have hd := hf2.2 .storageExists
      rw [show pSP5.problem_type = "storage_planning" from rfl] at hd
      exact hd
    rcases hbin with h | h <;> simp [h, aZ]

/-- Witness for the amended C7: at the positive fixed cost the optimal
all-zero assignment has storage_exists = 0, and it satisfies the big-M
relation. -/
theorem C7_storage_planning_witness :
    (0 : ℚ) < bSP5.storage_planning_fixed_installation_cost ∧
    aZ BVar.storageExists = 0 ∧
    aZ BVar.storageSize ≤ aZ BVar.storageExists * LARGE_CONSTANT := by
  have h := C7_storage_planning (b := bSP5) (p := pSP5) rfl
    (show formulate bSP5 "storage_planning" none none none none none = Except.ok pSP5
      from rfl) aZ
  refine ⟨by norm_num [show bSP5.storage_planning_fixed_installation_cost = 5 from rfl],
    ?_, ?_⟩
  · exact h.2 (Or.inl (by decide))
      (by norm_num [show bSP5.storage_planning_fixed_installation_cost = 5 from rfl])
      pSP5_optimal_aZ rfl
  · exact (h.1 pSP5_optimal_aZ.1).1

end Cobmo
